import Mathlib

/-!
# voussoir: page rectification (`src/page.cpp`)

A shallow embedding of `BookImage` from `src/page.cpp`:

* the constructor's contour loop (lines 45-66), which fills `src_markers` and
  `alert_marker_present`;
* `create_page_image(dst_markers, dst_size)` (lines 80-139);
* `create_page_image(dst_markers, layout)` (lines 141-166).

Modelling conventions.

* `std::map<int, V>` is the list of its entries in iteration order, that is in strictly
  ascending key order (`map_wf`); `map_find` is `find`, `map_assign` is `m[k] = v`.
* Coordinates (`float` / `double` in the source) are exact rationals: binary rounding is
  outside the model.  `static_cast<int>` truncates toward zero and is undefined (here:
  `none`) when the truncated value does not fit a 32-bit `int`.
* OpenCV primitives and `analyze_marker` are collaborators passed as parameters.  Calls
  that matter to the specification are recorded, in program order, in a trace.
-/

namespace Voussoir

/-! ## The program: data model, `create_page_image`, layout conversion, constructor -/

/-- OpenCV `CvPoint2D32f`. -/
structure CvPoint2D32f where
  x : ℚ
  y : ℚ
deriving DecidableEq

/-- OpenCV `cvPoint2D32f(x, y)`. -/
def cvPoint2D32f (x y : ℚ) : CvPoint2D32f := ⟨x, y⟩

/-- OpenCV `CvSize`. -/
structure CvSize where
  width : Int
  height : Int
deriving DecidableEq

/-- OpenCV `cvSize(width, height)`. -/
def cvSize (width height : Int) : CvSize := ⟨width, height⟩

/-- An image: its size and its pixel contents (kept abstract). -/
structure IplImage (Pix : Type) where
  size : CvSize
  pixels : Pix

/-- `std::map<int, V>`: the entries in iteration order. -/
abbrev StdMap (V : Type) := List (Int × V)

/-- The identities (keys) of a map, in iteration order. -/
def map_keys {V : Type} (m : StdMap V) : List Int := m.map Prod.fst

/-- Well-formedness of a `std::map`: keys strictly ascending in iteration order. -/
def map_wf {V : Type} (m : StdMap V) : Prop := (map_keys m).Pairwise (· < ·)

instance {V : Type} (m : StdMap V) : Decidable (map_wf m) := by
  unfold map_wf; infer_instance

/-- `m.size()`. -/
def map_size {V : Type} (m : StdMap V) : Nat := m.length

/-- `m.find(k)`: `none` stands for `m.end()`, `some v` for an iterator at `(k, v)`. -/
def map_find {V : Type} : StdMap V → Int → Option V
  | [], _ => none
  | (k', v) :: rest, k => if k = k' then some v else map_find rest k

/-- `m[k] = v`: overwrite the entry of `k` or insert it at its place in key order. -/
def map_assign {V : Type} : StdMap V → Int → V → StdMap V
  | [], k, v => [(k, v)]
  | (k', v') :: rest, k, v =>
    if k < k' then (k, v) :: (k', v') :: rest
    else if k = k' then (k, v) :: rest
    else (k', v') :: map_assign rest k v

/-- OpenCV `CvMat` of `CV_64FC1` cells; `none` is a cell never written since allocation. -/
structure CvMat where
  rows : Nat
  cols : Nat
  data : List (List (Option ℚ))
deriving DecidableEq

/-- OpenCV `cvCreateMat(rows, cols, CV_64FC1)`: cells are not initialised. -/
def cvCreateMat (rows cols : Nat) : CvMat :=
  ⟨rows, cols, List.replicate rows (List.replicate cols none)⟩

/-- OpenCV `cvmSet(mat, row, col, value)`. -/
def cvmSet (mat : CvMat) (row col : Nat) (value : ℚ) : CvMat :=
  { mat with data := mat.data.set row ((mat.data.getD row []).set col (some value)) }

/-- Row `i` of a matrix. -/
def CvMat.row (mat : CvMat) (i : Nat) : Option (List (Option ℚ)) := mat.data[i]?

/-- What is streamed to `std::cout`. -/
inductive Tok where
  | str (s : String)
  | int (n : Int)
deriving DecidableEq

/-- Observable steps of `create_page_image`, in program order. -/
inductive Event where
  | cvCreateMat (rows cols : Nat)
  | cvReleaseMat
  | cout (t : Tok)
  | cvCreateImage (size : CvSize)
  | cvFindHomography (src_points dst_points : CvMat)
  | cvWarpPerspective
deriving DecidableEq

/-- The OpenCV primitives `create_page_image` relies on. `H` is the homography matrix. -/
structure OpenCV (Pix H : Type) where
  /-- Pixel contents of a fresh `cvCreateImage`. -/
  cvCreateImage : CvSize → Pix
  /-- Homography solved from the two point matrices. -/
  cvFindHomography : CvMat → CvMat → H
  /-- Pixels written into the destination by `cvWarpPerspective(src, dst, h)`. -/
  cvWarpPerspective : IplImage Pix → IplImage Pix → H → Pix

/-- Modelled from the spec: the class declaration of `BookImage` is in `page.h`, which is
not part of the sources. `src_img` and `src_markers` have the types their uses in
`page.cpp` show; `alert_marker_present` is the spec's AlertFlags, a map from identity to
flag that is empty on a fresh object. -/
structure BookImage (Pix : Type) where
  src_img : IplImage Pix
  src_markers : StdMap CvPoint2D32f
  alert_marker_present : StdMap Bool

/-- What a call of `create_page_image` did: the returned pointer (`none` is `NULL`) and
the trace of its observable steps. -/
structure Outcome (Pix : Type) where
  ret : Option (IplImage Pix)
  trace : List Event

/-- Result of the correspondence loop (lines 98-120). -/
inductive Fill where
  | notFound (trace : List Event)
  | filled (src_points dst_points : CvMat) (row : Nat) (trace : List Event)

/-- The loop of lines 98-120 over the entries of `dst_markers` still to be visited. -/
def fill_points (src_markers : StdMap CvPoint2D32f) :
    List (Int × CvPoint2D32f) → CvMat → CvMat → Nat → List Event → Fill
  | [], src_points, dst_points, row, trace => Fill.filled src_points dst_points row trace
  | (id, d) :: rest, src_points, dst_points, row, trace =>
    match map_find src_markers id with
    | none =>
      Fill.notFound (trace ++ [Event.cvReleaseMat, Event.cvReleaseMat,
        Event.cout (Tok.str "Couldn't find "), Event.cout (Tok.int id),
        Event.cout (Tok.str "\n")])
    | some s =>
      let src_points := cvmSet (cvmSet src_points row 0 s.x) row 1 s.y
      let dst_points := cvmSet (cvmSet dst_points row 0 d.x) row 1 d.y
      fill_points src_markers rest src_points dst_points (row + 1)
        (trace ++ [Event.cout (Tok.int id), Event.cout (Tok.str " ")])

/-- `BookImage::create_page_image(dst_markers, dst_size)`, lines 80-139. -/
def create_page_image {Pix H : Type} (cv : OpenCV Pix H) (self : BookImage Pix)
    (dst_markers : StdMap CvPoint2D32f) (dst_size : CvSize) : Outcome Pix :=
  if map_size dst_markers < 4 then
    ⟨none, []⟩
  else
    let src_points := cvCreateMat (map_size dst_markers) 2
    let dst_points := cvCreateMat (map_size dst_markers) 2
    match fill_points self.src_markers dst_markers src_points dst_points 0
        [Event.cvCreateMat (map_size dst_markers) 2, Event.cvCreateMat (map_size dst_markers) 2,
         Event.cout (Tok.str "The following corner markers are recognized: ")] with
    | Fill.notFound trace => ⟨none, trace⟩
    | Fill.filled src_points dst_points _ trace =>
      let dst_image : IplImage Pix := ⟨dst_size, cv.cvCreateImage dst_size⟩
      let h := cv.cvFindHomography src_points dst_points
      let dst_image : IplImage Pix :=
        { dst_image with pixels := cv.cvWarpPerspective self.src_img dst_image h }
      ⟨some dst_image,
        trace ++ [Event.cout (Tok.str "\n"), Event.cvCreateImage dst_size,
          Event.cvCreateMat 3 3, Event.cvFindHomography src_points dst_points,
          Event.cvWarpPerspective, Event.cvReleaseMat, Event.cvReleaseMat,
          Event.cvReleaseMat]⟩

/-- Modelled from the spec: `LayoutInfo` is declared in `page.h`, which is not part of the
sources. The fields are the ones `page.cpp` reads: the physical page boundaries and the
resolution in pixels per physical unit. -/
structure LayoutInfo where
  page_left : ℚ
  page_top : ℚ
  page_right : ℚ
  page_bottom : ℚ
  dpi : ℚ

/-- Smallest value of a 32-bit `int`. -/
def INT_MIN : Int := -2147483648

/-- Largest value of a 32-bit `int`. -/
def INT_MAX : Int := 2147483647

/-- `static_cast<int>(d)` for a floating value `d`: the fractional part is discarded
(truncation toward zero); the conversion is undefined, `none`, when the truncated value
is not representable in `int`. -/
def static_cast_int (d : ℚ) : Option Int :=
  let t := Int.tdiv d.num d.den
  if INT_MIN ≤ t ∧ t ≤ INT_MAX then some t else none

/-- Lines 146-150: the destination image size in pixels. -/
def pageSize (layout : LayoutInfo) : Option CvSize :=
  let page_width_px := (layout.page_right - layout.page_left) * layout.dpi
  let page_height_px := (layout.page_bottom - layout.page_top) * layout.dpi
  match static_cast_int (page_width_px + 0.5), static_cast_int (page_height_px + 0.5) with
  | some w, some h => some (cvSize w h)
  | _, _ => none

/-- Lines 156-162: the marker positions converted to pixels, built by assigning the
entries of `dst_markers` one by one, in iteration order, into an empty map. -/
def dst_markers_px (layout : LayoutInfo) (dst_markers : StdMap CvPoint2D32f) :
    StdMap CvPoint2D32f :=
  dst_markers.foldl
    (fun acc dit => map_assign acc dit.1 (cvPoint2D32f
      ((dit.2.x - layout.page_left) * layout.dpi)
      ((dit.2.y - layout.page_top) * layout.dpi)))
    []

/-- `BookImage::create_page_image(dst_markers, layout)`, lines 141-166. The result is
`none` when the size conversion is undefined. -/
def create_page_image_layout {Pix H : Type} (cv : OpenCV Pix H) (self : BookImage Pix)
    (dst_markers : StdMap CvPoint2D32f) (layout : LayoutInfo) : Option (Outcome Pix) :=
  match pageSize layout with
  | none => none
  | some size => some (create_page_image cv self (dst_markers_px layout dst_markers) size)

/-- The collaborators of the constructor: OpenCV's image and contour primitives and
`analyze_marker` of `marker.h`. `total` is the field `poly->total`; `analyze_marker`
returns the identity together with the `points` array it fills. -/
structure Vision (Pix Gray Contour Poly : Type) where
  cvCvtColor : IplImage Pix → Gray
  cvAdaptiveThreshold : Gray → Gray
  cvFindContours : Gray → List Contour
  cvApproxPoly : Contour → Poly
  total : Poly → Int
  cvCheckContourConvexity : Poly → Int
  analyze_marker : Gray → Poly → Int × (Fin 4 → CvPoint2D32f)

/-- Observable steps of the constructor's loop, in program order. -/
inductive DetectEvent (Poly : Type) where
  | analyze_marker (poly : Poly)
  | cout (s : String)

/-- State of the constructor's loop: the two maps being filled and the trace. -/
structure Detect (Poly : Type) where
  src_markers : StdMap CvPoint2D32f
  alert_marker_present : StdMap Bool
  trace : List (DetectEvent Poly)

/-- Body of the loop of lines 45-66 for one contour. -/
def examine_contour {Pix Gray Contour Poly : Type} (v : Vision Pix Gray Contour Poly)
    (gray_img : Gray) (st : Detect Poly) (contour : Contour) : Detect Poly :=
  let poly := v.cvApproxPoly contour
  if v.total poly ≠ 4 ∨ v.cvCheckContourConvexity poly = 0 then
    st
  else
    let r := v.analyze_marker gray_img poly
    let marker_id := r.1
    let points := r.2
    let st := { st with trace := st.trace ++ [DetectEvent.analyze_marker poly] }
    if marker_id ≠ -1 then
      if marker_id = 8 then
        { st with
          alert_marker_present := map_assign st.alert_marker_present marker_id true
          trace := st.trace ++
            [DetectEvent.cout "Marker #8 (the 'Alert' marker for the left page) found..."] }
      else if marker_id = 9 then
        { st with
          alert_marker_present := map_assign st.alert_marker_present marker_id true
          trace := st.trace ++
            [DetectEvent.cout "Marker #9 (the 'Alert' marker for the right page) found..."] }
      else
        { st with src_markers := map_assign st.src_markers marker_id (points 0) }
    else
      st

/-- The loop of lines 45-66 over the chain of contours. -/
def examine_contours {Pix Gray Contour Poly : Type} (v : Vision Pix Gray Contour Poly)
    (gray_img : Gray) (st : Detect Poly) (contours : List Contour) : Detect Poly :=
  contours.foldl (examine_contour v gray_img) st

/-- The contours the constructor examines (lines 29-42). -/
def find_contours {Pix Gray Contour Poly : Type} (v : Vision Pix Gray Contour Poly)
    (src_img : IplImage Pix) : List Contour :=
  v.cvFindContours (v.cvAdaptiveThreshold (v.cvCvtColor src_img))

/-- The loop state when the constructor finishes. -/
def detect {Pix Gray Contour Poly : Type} (v : Vision Pix Gray Contour Poly)
    (src_img : IplImage Pix) : Detect Poly :=
  examine_contours v (v.cvCvtColor src_img) ⟨[], [], []⟩ (find_contours v src_img)

/-- `BookImage::BookImage(src_img)`, lines 27-72. -/
def BookImage.ctor {Pix Gray Contour Poly : Type} (v : Vision Pix Gray Contour Poly)
    (src_img : IplImage Pix) : BookImage Pix :=
  let st := detect v src_img
  ⟨src_img, st.src_markers, st.alert_marker_present⟩

/-- A contour passes the filter of line 49: its polygon has exactly 4 vertices and is
convex. -/
def accepted {Pix Gray Contour Poly : Type} (v : Vision Pix Gray Contour Poly)
    (contour : Contour) : Prop :=
  v.total (v.cvApproxPoly contour) = 4 ∧ v.cvCheckContourConvexity (v.cvApproxPoly contour) ≠ 0

/-- The identity `analyze_marker` returns for a contour's polygon. -/
def identity_of {Pix Gray Contour Poly : Type} (v : Vision Pix Gray Contour Poly)
    (gray_img : Gray) (contour : Contour) : Int :=
  (v.analyze_marker gray_img (v.cvApproxPoly contour)).1

/-- The first corrected corner, `points[0]`, `analyze_marker` returns for a contour. -/
def corner_of {Pix Gray Contour Poly : Type} (v : Vision Pix Gray Contour Poly)
    (gray_img : Gray) (contour : Contour) : CvPoint2D32f :=
  (v.analyze_marker gray_img (v.cvApproxPoly contour)).2 0

/-- An alert flag is set for identity `k`. -/
def alert_set (flags : StdMap Bool) (k : Int) : Prop := map_find flags k = some true

/-! ## Vocabulary of the specification -/

/-- The source row written for an entry of `dst_markers`. -/
def src_row (src_markers : StdMap CvPoint2D32f) (e : Int × CvPoint2D32f) : List (Option ℚ) :=
  match map_find src_markers e.1 with
  | some s => [some s.x, some s.y]
  | none => [none, none]

/-- The destination row written for an entry of `dst_markers`. -/
def dst_row (e : Int × CvPoint2D32f) : List (Option ℚ) := [some e.2.x, some e.2.y]

/-- What the loop prints for the entries it resolves. -/
def recognized (rest : List (Int × CvPoint2D32f)) : List Event :=
  rest.flatMap (fun e => [Event.cout (Tok.int e.1), Event.cout (Tok.str " ")])

/-- The diagnostic `Couldn't find <k>` is what the trace ends with. -/
def names_missing (trace : List Event) (k : Int) : Prop :=
  [Event.cout (Tok.str "Couldn't find "), Event.cout (Tok.int k),
    Event.cout (Tok.str "\n")] <:+ trace

instance (trace : List Event) (k : Int) : Decidable (names_missing trace k) := by
  unfold names_missing; infer_instance

/-- The trace of a successful `create_page_image`. -/
def success_trace (src_markers dst_markers : StdMap CvPoint2D32f) (dst_size : CvSize) :
    List Event :=
  [Event.cvCreateMat (map_size dst_markers) 2, Event.cvCreateMat (map_size dst_markers) 2,
    Event.cout (Tok.str "The following corner markers are recognized: ")]
  ++ recognized dst_markers
  ++ [Event.cout (Tok.str "\n"), Event.cvCreateImage dst_size, Event.cvCreateMat 3 3,
    Event.cvFindHomography
      ⟨map_size dst_markers, 2, dst_markers.map (src_row src_markers)⟩
      ⟨map_size dst_markers, 2, dst_markers.map dst_row⟩,
    Event.cvWarpPerspective, Event.cvReleaseMat, Event.cvReleaseMat, Event.cvReleaseMat]

/-- Number of identities of `m` smaller than `k`: the place of `k` in ascending order. -/
def rank {V : Type} (m : StdMap V) (k : Int) : Nat :=
  ((map_keys m).filter (fun k' => decide (k' < k))).length

/-- Truncation toward zero, in the words of the specification: the integer part of a
non-negative value is its floor, that of a negative value its ceiling. -/
def truncate (x : ℚ) : Int := if 0 ≤ x then ⌊x⌋ else ⌈x⌉

/-- Rounding as the specification words it: add 0.5 and truncate. -/
def round_half (x : ℚ) : Int := truncate (x + 1 / 2)

/-- The value is representable in a 32-bit `int`. -/
def in_int (z : Int) : Prop := INT_MIN ≤ z ∧ z ≤ INT_MAX

instance (z : Int) : Decidable (in_int z) := by unfold in_int; infer_instance

/-- Destination width as the specification's formula literally reads: the rounded
physical extent, multiplied by dpi. -/
def claimed_width (layout : LayoutInfo) : ℚ :=
  (round_half (layout.page_right - layout.page_left) : ℚ) * layout.dpi

/-- Destination height as the specification's formula literally reads. -/
def claimed_height (layout : LayoutInfo) : ℚ :=
  (round_half (layout.page_bottom - layout.page_top) : ℚ) * layout.dpi

/-- The pixel-space target map in the words of the specification: same identities, each
position translated by `(page_left, page_top)` and scaled by dpi. -/
def pixel_map (layout : LayoutInfo) (dst_markers : StdMap CvPoint2D32f) :
    StdMap CvPoint2D32f :=
  dst_markers.map (fun e =>
    (e.1, (⟨(e.2.x - layout.page_left) * layout.dpi,
            (e.2.y - layout.page_top) * layout.dpi⟩ : CvPoint2D32f)))

/-! ## Concrete data -/

/-- The OpenCV primitives over a one-point pixel type, for concrete evaluation. -/
def cv_unit : OpenCV Unit Unit := ⟨fun _ => (), fun _ _ => (), fun _ _ _ => ()⟩

/-- The detected marker map of the specification's identity example. -/
def markers_detected : StdMap CvPoint2D32f :=
  [(1, ⟨10, 10⟩), (2, ⟨110, 10⟩), (3, ⟨110, 110⟩), (4, ⟨10, 110⟩)]

/-- The target marker map of the specification's identity example. -/
def markers_target : StdMap CvPoint2D32f :=
  [(1, ⟨0, 0⟩), (2, ⟨100, 0⟩), (3, ⟨100, 100⟩), (4, ⟨0, 100⟩)]

/-- A page whose detection found `markers_detected`. -/
def book_example : BookImage Unit := ⟨⟨⟨640, 480⟩, ()⟩, markers_detected, []⟩

/-- A page whose detection found nothing. -/
def book_empty : BookImage Unit := ⟨⟨⟨640, 480⟩, ()⟩, [], []⟩

/-- The layout of the specification's round-trip example. -/
def layout_example : LayoutInfo := ⟨0, 0, 10, 8, 100⟩

/-- A letter-size page (8.5 by 11 units) at 300 dpi. -/
def layout_letter : LayoutInfo := ⟨0, 0, 17 / 2, 11, 300⟩

/-- A concrete detection run: six contours, of which the third has five vertices and the
fourth is not convex; the others are identified as 1, 8, 1 and "no marker". -/
def vision_example : Vision Unit Unit Nat Nat where
  cvCvtColor := fun _ => ()
  cvAdaptiveThreshold := fun _ => ()
  cvFindContours := fun _ => [0, 1, 2, 3, 4, 5]
  cvApproxPoly := fun c => c
  total := fun p => if p = 2 then 5 else 4
  cvCheckContourConvexity := fun p => if p = 3 then 0 else 1
  analyze_marker := fun _ p =>
    match p with
    | 0 => (1, fun _ => ⟨10, 10⟩)
    | 1 => (8, fun _ => ⟨30, 30⟩)
    | 2 => (2, fun _ => ⟨40, 40⟩)
    | 3 => (3, fun _ => ⟨50, 50⟩)
    | 4 => (1, fun _ => ⟨20, 20⟩)
    | _ => (-1, fun _ => ⟨0, 0⟩)

/-- A detection run in which no contour is a convex quadrilateral. -/
def vision_blank : Vision Unit Unit Nat Nat where
  cvCvtColor := fun _ => ()
  cvAdaptiveThreshold := fun _ => ()
  cvFindContours := fun _ => [0, 1]
  cvApproxPoly := fun c => c
  total := fun p => if p = 0 then 3 else 4
  cvCheckContourConvexity := fun _ => 0
  analyze_marker := fun _ _ => (1, fun _ => ⟨10, 10⟩)

/-- The source photograph of the concrete runs. -/
def photo : IplImage Unit := ⟨⟨640, 480⟩, ()⟩

/-- Physical marker positions on the example layout; identity 3 sits at (5,4). -/
def markers_physical : StdMap CvPoint2D32f :=
  [(1, ⟨1, 1⟩), (2, ⟨9, 1⟩), (3, ⟨5, 4⟩), (4, ⟨1, 7⟩)]

/-! ## Lemmas -/

theorem map_find_eq_none_iff {V : Type} (m : StdMap V) (k : Int) :
    map_find m k = none ↔ k ∉ map_keys m := by
  induction m with
  | nil => simp [map_find, map_keys]
  | cons e rest ih =>
    obtain ⟨k', v⟩ := e
    by_cases hk : k = k'
    · simp [map_find, map_keys, hk]
    · simp only [map_keys] at ih
      simp [map_find, map_keys, hk, ih]

theorem map_find_isSome_iff {V : Type} (m : StdMap V) (k : Int) :
    (∃ v, map_find m k = some v) ↔ k ∈ map_keys m := by
  rw [← not_iff_not, ← map_find_eq_none_iff]
  cases map_find m k <;> simp

theorem map_find_assign {V : Type} (m : StdMap V) (k : Int) (v : V) (k' : Int) :
    map_find (map_assign m k v) k' = if k' = k then some v else map_find m k' := by
  induction m with
  | nil => simp [map_assign, map_find]
  | cons e rest ih =>
    obtain ⟨k0, v0⟩ := e
    simp only [map_assign]
    by_cases h1 : k < k0
    · simp [h1, map_find]
    · by_cases h2 : k = k0
      · subst h2
        simp only [h1, if_false, if_true, map_find]
        by_cases h3 : k' = k <;> simp [h3]
      · simp only [h1, h2, if_false, map_find, ih]
        by_cases h3 : k' = k0
        · have hne : k0 ≠ k := fun h => h2 h.symm
          simp [h3, hne]
        · simp [h3]

theorem cvmSet_append (n c : Nat) (done und : List (List (Option ℚ))) (r : List (Option ℚ))
    (col : Nat) (a : ℚ) :
    cvmSet ⟨n, c, done ++ r :: und⟩ done.length col a
      = ⟨n, c, done ++ r.set col (some a) :: und⟩ := by
  simp only [cvmSet, CvMat.mk.injEq, true_and]
  induction done with
  | nil => simp
  | cons x xs ih => simpa using ih

theorem cvmSet_row (n c : Nat) (done und : List (List (Option ℚ))) (a b : ℚ) :
    cvmSet (cvmSet ⟨n, c, done ++ [none, none] :: und⟩ done.length 0 a) done.length 1 b
      = ⟨n, c, done ++ [some a, some b] :: und⟩ := by
  rw [cvmSet_append, cvmSet_append]; rfl

theorem fill_points_filled (src_markers : StdMap CvPoint2D32f) :
    ∀ (rest : List (Int × CvPoint2D32f)) (done_s done_d : List (List (Option ℚ)))
      (n : Nat) (trace : List Event),
      (∀ k ∈ map_keys rest, k ∈ map_keys src_markers) →
      done_s.length = done_d.length →
      fill_points src_markers rest
          ⟨n, 2, done_s ++ List.replicate rest.length [none, none]⟩
          ⟨n, 2, done_d ++ List.replicate rest.length [none, none]⟩ done_s.length trace
        = Fill.filled ⟨n, 2, done_s ++ rest.map (src_row src_markers)⟩
            ⟨n, 2, done_d ++ rest.map dst_row⟩ (done_s.length + rest.length)
            (trace ++ recognized rest) := by
  intro rest
  induction rest with
  | nil => intro done_s done_d n trace _ _; simp [fill_points, recognized]
  | cons e rest ih =>
    intro done_s done_d n trace hk hlen
    obtain ⟨id, d⟩ := e
    have hid : id ∈ map_keys src_markers := hk id (by simp [map_keys])
    obtain ⟨s, hs⟩ := (map_find_isSome_iff src_markers id).2 hid
    have hk' : ∀ k ∈ map_keys rest, k ∈ map_keys src_markers := by
      intro k hkr
      exact hk k (by simp only [map_keys, List.map_cons, List.mem_cons]; right; exact hkr)
    have step := ih (done_s ++ [[some s.x, some s.y]]) (done_d ++ [[some d.x, some d.y]]) n
      (trace ++ [Event.cout (Tok.int id), Event.cout (Tok.str " ")]) hk' (by simp [hlen])
    simp only [List.length_cons, List.replicate_succ, fill_points, hs]
    rw [cvmSet_row, hlen, cvmSet_row, ← hlen]
    simp only [List.length_append, List.length_singleton, List.append_assoc,
      List.singleton_append] at step
    rw [step]
    simp only [src_row, dst_row, hs, recognized, List.map_cons, List.flatMap_cons,
      Fill.filled.injEq, true_and]
    exact ⟨by omega, trivial⟩

theorem fill_points_missing (src_markers : StdMap CvPoint2D32f) :
    ∀ (rest : List (Int × CvPoint2D32f)) (src_points dst_points : CvMat) (row : Nat)
      (trace : List Event),
      (∃ k ∈ map_keys rest, k ∉ map_keys src_markers) →
      (∀ size, Event.cvCreateImage size ∉ trace) →
      ∃ k trace', k ∈ map_keys rest ∧ k ∉ map_keys src_markers ∧
        fill_points src_markers rest src_points dst_points row trace = Fill.notFound trace' ∧
        names_missing trace' k ∧ ∀ size, Event.cvCreateImage size ∉ trace' := by
  intro rest
  induction rest with
  | nil => intro _ _ _ _ h; simp [map_keys] at h
  | cons e rest ih =>
    intro src_points dst_points row trace hmiss hno
    obtain ⟨id, d⟩ := e
    cases hs : map_find src_markers id with
    | none =>
      refine ⟨id, trace ++ [Event.cvReleaseMat, Event.cvReleaseMat,
        Event.cout (Tok.str "Couldn't find "), Event.cout (Tok.int id),
        Event.cout (Tok.str "\n")], by simp [map_keys],
        (map_find_eq_none_iff _ _).1 hs, ?_, ?_, ?_⟩
      · simp only [fill_points, hs]
      · refine ⟨trace ++ [Event.cvReleaseMat, Event.cvReleaseMat], by simp⟩
      · intro size; simp [hno size]
    | some s =>
      have hin : id ∈ map_keys src_markers := (map_find_isSome_iff _ _).1 ⟨s, hs⟩
      have hmiss' : ∃ k ∈ map_keys rest, k ∉ map_keys src_markers := by
        obtain ⟨k, hk, hkn⟩ := hmiss
        simp only [map_keys, List.map_cons, List.mem_cons] at hk
        rcases hk with rfl | hk
        · exact absurd hin hkn
        · exact ⟨k, hk, hkn⟩
      obtain ⟨k, trace', h1, h2, h3, h4, h5⟩ :=
        ih (cvmSet (cvmSet src_points row 0 s.x) row 1 s.y)
          (cvmSet (cvmSet dst_points row 0 d.x) row 1 d.y) (row + 1)
          (trace ++ [Event.cout (Tok.int id), Event.cout (Tok.str " ")]) hmiss'
          (by intro size; simp [hno size])
      refine ⟨k, trace', ?_, h2, ?_, h4, h5⟩
      · simp only [map_keys, List.map_cons, List.mem_cons]; right; exact h1
      · simp only [fill_points, hs]; exact h3

theorem create_page_image_filled {Pix H : Type} (cv : OpenCV Pix H) (self : BookImage Pix)
    (dst_markers : StdMap CvPoint2D32f) (dst_size : CvSize)
    (h4 : 4 ≤ map_size dst_markers)
    (hsub : ∀ k ∈ map_keys dst_markers, k ∈ map_keys self.src_markers) :
    create_page_image cv self dst_markers dst_size
      = ⟨some ⟨dst_size, cv.cvWarpPerspective self.src_img
            ⟨dst_size, cv.cvCreateImage dst_size⟩
            (cv.cvFindHomography
              ⟨map_size dst_markers, 2, dst_markers.map (src_row self.src_markers)⟩
              ⟨map_size dst_markers, 2, dst_markers.map dst_row⟩)⟩,
          success_trace self.src_markers dst_markers dst_size⟩ := by
  have hfill := fill_points_filled self.src_markers dst_markers [] [] (map_size dst_markers)
    [Event.cvCreateMat (map_size dst_markers) 2, Event.cvCreateMat (map_size dst_markers) 2,
      Event.cout (Tok.str "The following corner markers are recognized: ")] hsub rfl
  simp only [List.nil_append, List.length_nil] at hfill
  have hnot : ¬ map_size dst_markers < 4 := by omega
  have hmat : cvCreateMat (map_size dst_markers) 2
      = ⟨map_size dst_markers, 2, List.replicate dst_markers.length [none, none]⟩ := rfl
  simp only [create_page_image, hnot, if_false, hmat, hfill, success_trace,
    List.append_assoc]

theorem create_page_image_missing {Pix H : Type} (cv : OpenCV Pix H) (self : BookImage Pix)
    (dst_markers : StdMap CvPoint2D32f) (dst_size : CvSize)
    (h4 : 4 ≤ map_size dst_markers)
    (hmiss : ∃ k ∈ map_keys dst_markers, k ∉ map_keys self.src_markers) :
    (create_page_image cv self dst_markers dst_size).ret = none ∧
    (∃ k, k ∈ map_keys dst_markers ∧ k ∉ map_keys self.src_markers ∧
      names_missing (create_page_image cv self dst_markers dst_size).trace k) ∧
    ∀ size, Event.cvCreateImage size ∉ (create_page_image cv self dst_markers dst_size).trace := by
  obtain ⟨k, trace', h1, h2, h3, h4', h5⟩ :=
    fill_points_missing self.src_markers dst_markers (cvCreateMat (map_size dst_markers) 2)
      (cvCreateMat (map_size dst_markers) 2) 0
      [Event.cvCreateMat (map_size dst_markers) 2, Event.cvCreateMat (map_size dst_markers) 2,
        Event.cout (Tok.str "The following corner markers are recognized: ")] hmiss
      (by intro size; simp)
  have hnot : ¬ map_size dst_markers < 4 := by omega
  simp only [create_page_image, hnot, if_false, h3]
  exact ⟨trivial, ⟨k, h1, h2, h4'⟩, h5⟩

theorem rank_of_index {V : Type} (m : StdMap V) (hwf : map_wf m) :
    ∀ (i : Nat) (e : Int × V), m[i]? = some e → rank m e.1 = i := by
  induction m with
  | nil => intro i e h; simp at h
  | cons a t ih =>
    intro i e h
    have hp : (∀ b ∈ map_keys t, a.1 < b) ∧ map_wf t := by
      simpa [map_wf, map_keys] using hwf
    cases i with
    | zero =>
      simp only [List.getElem?_cons_zero, Option.some.injEq] at h
      subst h
      have : (map_keys t).filter (fun k' => decide (k' < a.1)) = [] := by
        rw [List.filter_eq_nil_iff]
        intro b hb
        have := hp.1 b hb
        simp only [decide_eq_true_eq]; omega
      simp [rank, map_keys] at this ⊢
      simpa [map_keys] using this
    | succ j =>
      simp only [List.getElem?_cons_succ] at h
      have hj := ih hp.2 j e h
      have hmem : e.1 ∈ map_keys t := by
        simp only [map_keys, List.mem_map]
        exact ⟨e, (List.mem_iff_getElem?.2 ⟨j, h⟩), rfl⟩
      have hlt : a.1 < e.1 := hp.1 _ hmem
      simp only [rank, map_keys, List.map_cons, List.filter_cons, hlt, decide_True, if_true,
        List.length_cons] at hj ⊢
      omega

theorem create_page_image_short {Pix H : Type} (cv : OpenCV Pix H)
    (self : BookImage Pix) (dst_markers : StdMap CvPoint2D32f) (dst_size : CvSize)
    (h : map_size dst_markers < 4) :
    (create_page_image cv self dst_markers dst_size).ret = none ∧
    (create_page_image cv self dst_markers dst_size).trace = [] ∧
    ∀ size, Event.cvCreateImage size ∉ (create_page_image cv self dst_markers dst_size).trace := by
  simp [create_page_image, h]

theorem mem_recognized_not_homography (rest : List (Int × CvPoint2D32f)) (a b : CvMat) :
    Event.cvFindHomography a b ∉ recognized rest := by
  simp [recognized]

theorem tdiv_of_nonneg (q : ℚ) (h : 0 ≤ q) : Int.tdiv q.num q.den = ⌊q⌋ := by
  rw [Rat.floor_def, Int.tdiv_eq_ediv (Rat.num_nonneg.2 h) (by positivity)]

theorem tdiv_of_neg (q : ℚ) (h : q < 0) : Int.tdiv q.num q.den = ⌈q⌉ := by
  have h1 := tdiv_of_nonneg (-q) (by linarith)
  rw [Rat.num_neg_eq_neg_num, Rat.den_neg_eq_den, Int.neg_tdiv, Int.floor_neg] at h1
  omega

theorem tdiv_eq_truncate (q : ℚ) : Int.tdiv q.num q.den = truncate q := by
  unfold truncate
  split
  · next h => exact tdiv_of_nonneg q h
  · next h => exact tdiv_of_neg q (lt_of_not_le h)

theorem static_cast_int_eq (d : ℚ) :
    static_cast_int d = if in_int (truncate d) then some (truncate d) else none := by
  simp only [static_cast_int, tdiv_eq_truncate, in_int]

theorem static_cast_int_of_nonneg (d : ℚ) (h0 : 0 ≤ d) (hmax : ⌊d⌋ ≤ INT_MAX) :
    static_cast_int d = some ⌊d⌋ := by
  have hfl : (0 : Int) ≤ ⌊d⌋ := Int.floor_nonneg.2 h0
  have hin : in_int ⌊d⌋ := ⟨by unfold INT_MIN; omega, hmax⟩
  rw [static_cast_int_eq]
  simp only [truncate, h0, if_true, hin]

theorem pageSize_example : pageSize layout_example = some ⟨1000, 800⟩ := by
  have hw : ⌊((10 : ℚ) - 0) * 100 + 0.5⌋ = 1000 := by rw [Int.floor_eq_iff]; norm_num
  have hh : ⌊((8 : ℚ) - 0) * 100 + 0.5⌋ = 800 := by rw [Int.floor_eq_iff]; norm_num
  have h1 := static_cast_int_of_nonneg (((10 : ℚ) - 0) * 100 + 0.5) (by norm_num)
    (by rw [hw]; decide)
  have h2 := static_cast_int_of_nonneg (((8 : ℚ) - 0) * 100 + 0.5) (by norm_num)
    (by rw [hh]; decide)
  simp only [pageSize, layout_example, h1, h2, hw, hh, cvSize]

theorem map_assign_append {V : Type} (acc : StdMap V) (k : Int) (v : V)
    (h : ∀ a ∈ map_keys acc, a < k) : map_assign acc k v = acc ++ [(k, v)] := by
  induction acc with
  | nil => rfl
  | cons e rest ih =>
    obtain ⟨k0, v0⟩ := e
    have h0 : k0 < k := h k0 (by simp [map_keys])
    have hrest : ∀ a ∈ map_keys rest, a < k := by
      intro a ha
      exact h a (by simp only [map_keys, List.map_cons, List.mem_cons]; right; exact ha)
    have h1 : ¬ k < k0 := by omega
    have h2 : ¬ k = k0 := by omega
    simp only [map_assign, h1, h2, if_false, ih hrest, List.cons_append]

theorem foldl_assign_eq_map (layout : LayoutInfo) :
    ∀ (rest acc : StdMap CvPoint2D32f),
      (∀ a ∈ map_keys acc, ∀ b ∈ map_keys rest, a < b) → map_wf rest →
      rest.foldl
        (fun acc dit => map_assign acc dit.1 (cvPoint2D32f
          ((dit.2.x - layout.page_left) * layout.dpi)
          ((dit.2.y - layout.page_top) * layout.dpi))) acc
        = acc ++ pixel_map layout rest := by
  intro rest
  induction rest with
  | nil => intro acc _ _; simp [pixel_map]
  | cons e rest ih =>
    intro acc hlt hwf
    have hp : (∀ b ∈ map_keys rest, e.1 < b) ∧ map_wf rest := by
      simpa [map_wf, map_keys] using hwf
    have hacc : ∀ a ∈ map_keys acc, a < e.1 := fun a ha => hlt a ha e.1 (by simp [map_keys])
    simp only [List.foldl_cons, map_assign_append acc e.1 _ hacc]
    rw [ih _ ?_ hp.2]
    · simp [pixel_map, cvPoint2D32f]
    · intro a ha b hb
      simp only [map_keys, List.map_append, List.map_cons, List.map_nil, List.mem_append,
        List.mem_singleton] at ha
      rcases ha with ha | ha
      · exact hlt a ha b (by simp only [map_keys, List.map_cons, List.mem_cons]; right; exact hb)
      · rw [ha]; exact hp.1 b hb

theorem dst_markers_px_eq_pixel_map (layout : LayoutInfo) (dst_markers : StdMap CvPoint2D32f)
    (hwf : map_wf dst_markers) : dst_markers_px layout dst_markers = pixel_map layout dst_markers := by
  have h := foldl_assign_eq_map layout dst_markers [] (by simp [map_keys]) hwf
  simpa [dst_markers_px] using h

theorem map_find_pixel_map (layout : LayoutInfo) (dst_markers : StdMap CvPoint2D32f) (k : Int) :
    map_find (pixel_map layout dst_markers) k
      = (map_find dst_markers k).map (fun p =>
          (⟨(p.x - layout.page_left) * layout.dpi,
            (p.y - layout.page_top) * layout.dpi⟩ : CvPoint2D32f)) := by
  induction dst_markers with
  | nil => rfl
  | cons e rest ih =>
    obtain ⟨k0, p0⟩ := e
    simp only [pixel_map, List.map_cons, map_find] at ih ⊢
    by_cases hk : k = k0
    · simp [hk]
    · simp only [hk, if_false]; exact ih

theorem examine_contour_rejected {Pix Gray Contour Poly : Type}
    (v : Vision Pix Gray Contour Poly) (gray_img : Gray) (st : Detect Poly) (c : Contour)
    (h : ¬ accepted v c) : examine_contour v gray_img st c = st := by
  have h' : v.total (v.cvApproxPoly c) ≠ 4 ∨ v.cvCheckContourConvexity (v.cvApproxPoly c) = 0 := by
    by_contra hn
    push_neg at hn
    exact h ⟨hn.1, hn.2⟩
  simp only [examine_contour, h', if_true]

theorem examine_contour_src {Pix Gray Contour Poly : Type}
    (v : Vision Pix Gray Contour Poly) (gray_img : Gray) (st : Detect Poly) (c : Contour)
    (k : Int) :
    (accepted v c ∧ identity_of v gray_img c = k ∧ k ≠ -1 ∧ k ≠ 8 ∧ k ≠ 9 →
      map_find (examine_contour v gray_img st c).src_markers k
        = some (corner_of v gray_img c)) ∧
    (¬ (accepted v c ∧ identity_of v gray_img c = k ∧ k ≠ -1 ∧ k ≠ 8 ∧ k ≠ 9) →
      map_find (examine_contour v gray_img st c).src_markers k = map_find st.src_markers k) := by
  by_cases hacc : accepted v c
  · have h' : ¬ (v.total (v.cvApproxPoly c) ≠ 4 ∨
        v.cvCheckContourConvexity (v.cvApproxPoly c) = 0) := by
      rintro (h | h)
      · exact h hacc.1
      · exact hacc.2 h
    by_cases h1 : (v.analyze_marker gray_img (v.cvApproxPoly c)).1 = -1
    · simp only [examine_contour, h', if_false, h1, ne_eq, not_true_eq_false, identity_of]
      constructor
      · rintro ⟨_, hk, hk1, _⟩; exact absurd (hk ▸ rfl) hk1
      · intro _; trivial
    · by_cases h8 : (v.analyze_marker gray_img (v.cvApproxPoly c)).1 = 8
      · simp only [examine_contour, h', if_false, h1, ne_eq, not_false_eq_true, if_true, h8,
          identity_of]
        constructor
        · rintro ⟨_, hk, _, hk8, _⟩; exact absurd hk.symm hk8
        · intro _; trivial
      · by_cases h9 : (v.analyze_marker gray_img (v.cvApproxPoly c)).1 = 9
        · simp only [examine_contour, h', if_false, h1, ne_eq, not_false_eq_true, if_true, h8,
            h9, identity_of]
          constructor
          · rintro ⟨_, hk, _, _, hk9⟩; exact absurd hk.symm hk9
          · intro _; trivial
        · simp only [examine_contour, h', if_false, h1, ne_eq, not_false_eq_true, if_true, h8,
            h9, identity_of, corner_of, map_find_assign]
          constructor
          · rintro ⟨_, hk, _⟩; simp [hk]
          · intro hn
            have hne : ¬ k = (v.analyze_marker gray_img (v.cvApproxPoly c)).1 := by
              intro hk
              apply hn
              refine ⟨hacc, hk.symm, ?_, ?_, ?_⟩ <;> rw [hk] <;> assumption
            simp [hne]
  · rw [examine_contour_rejected v gray_img st c hacc]
    exact ⟨fun h => absurd h.1 hacc, fun _ => rfl⟩

theorem examine_contour_alert {Pix Gray Contour Poly : Type}
    (v : Vision Pix Gray Contour Poly) (gray_img : Gray) (st : Detect Poly) (c : Contour)
    (k : Int) (b : Bool) :
    map_find (examine_contour v gray_img st c).alert_marker_present k = some b ↔
      (((k = 8 ∨ k = 9) ∧ accepted v c ∧ identity_of v gray_img c = k) ∧ b = true) ∨
      (¬ ((k = 8 ∨ k = 9) ∧ accepted v c ∧ identity_of v gray_img c = k) ∧
        map_find st.alert_marker_present k = some b) := by
  by_cases hacc : accepted v c
  · have h' : ¬ (v.total (v.cvApproxPoly c) ≠ 4 ∨
        v.cvCheckContourConvexity (v.cvApproxPoly c) = 0) := by
      rintro (h | h)
      · exact h hacc.1
      · exact hacc.2 h
    by_cases h8 : (v.analyze_marker gray_img (v.cvApproxPoly c)).1 = 8
    · have h1 : (v.analyze_marker gray_img (v.cvApproxPoly c)).1 ≠ -1 := by rw [h8]; decide
      simp only [examine_contour, h', if_false, h1, ne_eq, not_false_eq_true, if_true, h8,
        identity_of, map_find_assign, hacc, true_and]
      by_cases hk : k = 8
      · subst hk; simp [map_find_assign, eq_comm]
      · have hk' : ¬ (8 : Int) = k := fun h => hk h.symm
        simp [map_find_assign, hk, hk']
    · by_cases h9 : (v.analyze_marker gray_img (v.cvApproxPoly c)).1 = 9
      · have h1 : (v.analyze_marker gray_img (v.cvApproxPoly c)).1 ≠ -1 := by rw [h9]; decide
        simp only [examine_contour, h', if_false, h1, ne_eq, not_false_eq_true, if_true, h8,
          h9, identity_of, map_find_assign, hacc, true_and]
        by_cases hk : k = 9
        · subst hk; simp [map_find_assign, eq_comm]
        · have hk' : ¬ (9 : Int) = k := fun h => hk h.symm
          simp [map_find_assign, hk, hk']
      · have hno : ¬ ((k = 8 ∨ k = 9) ∧ accepted v c ∧ identity_of v gray_img c = k) := by
          rintro ⟨hk | hk, _, hid⟩
          · exact h8 (by rw [← hk]; exact hid)
          · exact h9 (by rw [← hk]; exact hid)
        have hsame : (examine_contour v gray_img st c).alert_marker_present
            = st.alert_marker_present := by
          by_cases h1 : (v.analyze_marker gray_img (v.cvApproxPoly c)).1 = -1
          · simp only [examine_contour, h', if_false, h1, ne_eq, not_true_eq_false]
          · simp only [examine_contour, h', if_false, h1, ne_eq, not_false_eq_true, if_true,
              h8, h9]
        rw [hsame]
        simp [hno]
  · rw [examine_contour_rejected v gray_img st c hacc]
    simp [hacc]

theorem examine_contour_trace {Pix Gray Contour Poly : Type}
    (v : Vision Pix Gray Contour Poly) (gray_img : Gray) (st : Detect Poly) (c : Contour)
    (poly : Poly) :
    DetectEvent.analyze_marker poly ∈ (examine_contour v gray_img st c).trace →
      DetectEvent.analyze_marker poly ∈ st.trace ∨
      (v.total poly = 4 ∧ v.cvCheckContourConvexity poly ≠ 0) := by
  by_cases hacc : accepted v c
  · have h' : ¬ (v.total (v.cvApproxPoly c) ≠ 4 ∨
        v.cvCheckContourConvexity (v.cvApproxPoly c) = 0) := by
      rintro (h | h)
      · exact h hacc.1
      · exact hacc.2 h
    intro hmem
    have hcases : DetectEvent.analyze_marker poly ∈ st.trace ∨ poly = v.cvApproxPoly c := by
      simp only [examine_contour, h', if_false] at hmem
      split_ifs at hmem <;>
        simp only [List.mem_append, List.mem_singleton, DetectEvent.analyze_marker.injEq,
          reduceCtorEq, or_false] at hmem <;> exact hmem
    rcases hcases with h | h
    · exact Or.inl h
    · right; rw [h]; exact hacc
  · rw [examine_contour_rejected v gray_img st c hacc]
    exact Or.inl

theorem examine_contours_cons {Pix Gray Contour Poly : Type}
    (v : Vision Pix Gray Contour Poly) (gray_img : Gray) (st : Detect Poly) (c : Contour)
    (cs : List Contour) :
    examine_contours v gray_img st (c :: cs)
      = examine_contours v gray_img (examine_contour v gray_img st c) cs := rfl

theorem examine_contours_append {Pix Gray Contour Poly : Type}
    (v : Vision Pix Gray Contour Poly) (gray_img : Gray) (st : Detect Poly)
    (pre post : List Contour) :
    examine_contours v gray_img st (pre ++ post)
      = examine_contours v gray_img (examine_contours v gray_img st pre) post := by
  simp [examine_contours, List.foldl_append]

theorem examine_contours_src_keys {Pix Gray Contour Poly : Type}
    (v : Vision Pix Gray Contour Poly) (gray_img : Gray) (k : Int) :
    ∀ (cs : List Contour) (st : Detect Poly),
      (∃ p, map_find (examine_contours v gray_img st cs).src_markers k = some p) ↔
        (∃ p, map_find st.src_markers k = some p) ∨
        (k ≠ -1 ∧ k ≠ 8 ∧ k ≠ 9 ∧
          ∃ c ∈ cs, accepted v c ∧ identity_of v gray_img c = k) := by
  intro cs
  induction cs with
  | nil => intro st; simp [examine_contours]
  | cons c cs ih =>
    intro st
    rw [examine_contours_cons, ih]
    obtain ⟨hw, hn⟩ := examine_contour_src v gray_img st c k
    by_cases hc : accepted v c ∧ identity_of v gray_img c = k ∧ k ≠ -1 ∧ k ≠ 8 ∧ k ≠ 9
    · rw [hw hc]
      constructor
      · intro _
        exact Or.inr ⟨hc.2.2.1, hc.2.2.2.1, hc.2.2.2.2, c, List.mem_cons_self _ _, hc.1, hc.2.1⟩
      · intro _
        exact Or.inl ⟨_, rfl⟩
    · rw [hn hc]
      constructor
      · rintro (h | ⟨h1, h8, h9, c', hc', hacc, hid⟩)
        · exact Or.inl h
        · exact Or.inr ⟨h1, h8, h9, c', List.mem_cons_of_mem _ hc', hacc, hid⟩
      · rintro (h | ⟨h1, h8, h9, c', hc', hacc, hid⟩)
        · exact Or.inl h
        · rcases List.mem_cons.1 hc' with heq | hmem
          · subst heq
            exact absurd ⟨hacc, hid, h1, h8, h9⟩ hc
          · exact Or.inr ⟨h1, h8, h9, c', hmem, hacc, hid⟩

theorem examine_contours_src_unwritten {Pix Gray Contour Poly : Type}
    (v : Vision Pix Gray Contour Poly) (gray_img : Gray) (k : Int) :
    ∀ (cs : List Contour) (st : Detect Poly),
      (∀ c ∈ cs, ¬ (accepted v c ∧ identity_of v gray_img c = k)) →
      map_find (examine_contours v gray_img st cs).src_markers k = map_find st.src_markers k := by
  intro cs
  induction cs with
  | nil => intro st _; rfl
  | cons c cs ih =>
    intro st h
    rw [examine_contours_cons, ih _ (fun c' hc' => h c' (List.mem_cons_of_mem _ hc'))]
    apply (examine_contour_src v gray_img st c k).2
    intro hc
    exact h c (List.mem_cons_self _ _) ⟨hc.1, hc.2.1⟩

theorem examine_contours_alert {Pix Gray Contour Poly : Type}
    (v : Vision Pix Gray Contour Poly) (gray_img : Gray) (k : Int) :
    ∀ (cs : List Contour) (st : Detect Poly),
      ((∃ b, map_find (examine_contours v gray_img st cs).alert_marker_present k = some b) ↔
        (∃ b, map_find st.alert_marker_present k = some b) ∨
        ((k = 8 ∨ k = 9) ∧ ∃ c ∈ cs, accepted v c ∧ identity_of v gray_img c = k)) ∧
      (alert_set (examine_contours v gray_img st cs).alert_marker_present k ↔
        alert_set st.alert_marker_present k ∨
        ((k = 8 ∨ k = 9) ∧ ∃ c ∈ cs, accepted v c ∧ identity_of v gray_img c = k)) := by
  intro cs
  induction cs with
  | nil => intro st; simp [examine_contours]
  | cons c cs ih =>
    intro st
    rw [examine_contours_cons]
    obtain ⟨ih1, ih2⟩ := ih (examine_contour v gray_img st c)
    have hstep := examine_contour_alert v gray_img st c k
    constructor
    · rw [ih1]
      constructor
      · rintro (⟨b, hb⟩ | ⟨hk, c', hc', hacc, hid⟩)
        · rcases (hstep b).1 hb with ⟨⟨hk, hacc, hid⟩, _⟩ | ⟨_, hold⟩
          · exact Or.inr ⟨hk, c, List.mem_cons_self _ _, hacc, hid⟩
          · exact Or.inl ⟨b, hold⟩
        · exact Or.inr ⟨hk, c', List.mem_cons_of_mem _ hc', hacc, hid⟩
      · rintro (⟨b, hb⟩ | ⟨hk, c', hc', hacc, hid⟩)
        · by_cases hw : (k = 8 ∨ k = 9) ∧ accepted v c ∧ identity_of v gray_img c = k
          · exact Or.inl ⟨true, (hstep true).2 (Or.inl ⟨hw, rfl⟩)⟩
          · exact Or.inl ⟨b, (hstep b).2 (Or.inr ⟨hw, hb⟩)⟩
        · rcases List.mem_cons.1 hc' with heq | hmem
          · subst heq
            exact Or.inl ⟨true, (hstep true).2 (Or.inl ⟨⟨hk, hacc, hid⟩, rfl⟩)⟩
          · exact Or.inr ⟨hk, c', hmem, hacc, hid⟩
    · rw [ih2]
      unfold alert_set
      constructor
      · rintro (hb | ⟨hk, c', hc', hacc, hid⟩)
        · rcases (hstep true).1 hb with ⟨⟨hk, hacc, hid⟩, _⟩ | ⟨_, hold⟩
          · exact Or.inr ⟨hk, c, List.mem_cons_self _ _, hacc, hid⟩
          · exact Or.inl hold
        · exact Or.inr ⟨hk, c', List.mem_cons_of_mem _ hc', hacc, hid⟩
      · rintro (hb | ⟨hk, c', hc', hacc, hid⟩)
        · by_cases hw : (k = 8 ∨ k = 9) ∧ accepted v c ∧ identity_of v gray_img c = k
          · exact Or.inl ((hstep true).2 (Or.inl ⟨hw, rfl⟩))
          · exact Or.inl ((hstep true).2 (Or.inr ⟨hw, hb⟩))
        · rcases List.mem_cons.1 hc' with heq | hmem
          · subst heq
            exact Or.inl ((hstep true).2 (Or.inl ⟨⟨hk, hacc, hid⟩, rfl⟩))
          · exact Or.inr ⟨hk, c', hmem, hacc, hid⟩

theorem examine_contours_trace {Pix Gray Contour Poly : Type}
    (v : Vision Pix Gray Contour Poly) (gray_img : Gray) (poly : Poly) :
    ∀ (cs : List Contour) (st : Detect Poly),
      DetectEvent.analyze_marker poly ∈ (examine_contours v gray_img st cs).trace →
        DetectEvent.analyze_marker poly ∈ st.trace ∨
        (v.total poly = 4 ∧ v.cvCheckContourConvexity poly ≠ 0) := by
  intro cs
  induction cs with
  | nil => intro st h; exact Or.inl h
  | cons c cs ih =>
    intro st h
    rw [examine_contours_cons] at h
    rcases ih _ h with h1 | h1
    · exact examine_contour_trace v gray_img st c poly h1
    · exact Or.inr h1

theorem exists_last {α : Type} (P : α → Prop) :
    ∀ (cs : List α), (∃ c ∈ cs, P c) →
      ∃ pre c post, cs = pre ++ c :: post ∧ P c ∧ ∀ c' ∈ post, ¬ P c' := by
  intro cs
  induction cs with
  | nil => intro h; simp at h
  | cons a t ih =>
    intro h
    by_cases ht : ∃ c ∈ t, P c
    · obtain ⟨pre, c, post, heq, hc, hpost⟩ := ih ht
      exact ⟨a :: pre, c, post, by rw [heq]; rfl, hc, hpost⟩
    · obtain ⟨c, hc, hP⟩ := h
      rcases List.mem_cons.1 hc with heq | hmem
      · subst heq
        exact ⟨[], c, t, rfl, hP, fun c' hc' hP' => ht ⟨c', hc', hP'⟩⟩
      · exact absurd ⟨c, hmem, hP⟩ ht

theorem examine_contours_none_accepted {Pix Gray Contour Poly : Type}
    (v : Vision Pix Gray Contour Poly) (gray_img : Gray) :
    ∀ (cs : List Contour) (st : Detect Poly), (∀ c ∈ cs, ¬ accepted v c) →
      examine_contours v gray_img st cs = st := by
  intro cs
  induction cs with
  | nil => intro st _; rfl
  | cons c cs ih =>
    intro st h
    rw [examine_contours_cons, examine_contour_rejected v gray_img st c
      (h c (List.mem_cons_self _ _))]
    exact ih st (fun c' hc' => h c' (List.mem_cons_of_mem _ hc'))

theorem ctor_example :
    (BookImage.ctor vision_example photo).src_markers = [(1, ⟨20, 20⟩)] ∧
    (BookImage.ctor vision_example photo).alert_marker_present = [(8, true)] := by
  constructor <;> rfl

/-! ## The claims -/

/-- C1: when `dst_markers` has fewer than 4 entries, `create_page_image(dst_markers,
dst_size)` returns NULL and has done nothing before returning (its trace is empty), so no
destination image was allocated; `src_markers` plays no part. -/
theorem create_page_image_fewer_than_four {Pix H : Type} (cv : OpenCV Pix H)
    (self : BookImage Pix) (dst_markers : StdMap CvPoint2D32f) (dst_size : CvSize)
    (h : map_size dst_markers < 4) :
    (create_page_image cv self dst_markers dst_size).ret = none ∧
    (create_page_image cv self dst_markers dst_size).trace = [] ∧
    ∀ size, Event.cvCreateImage size ∉ (create_page_image cv self dst_markers dst_size).trace := by
  have hret : create_page_image cv self dst_markers dst_size = ⟨none, []⟩ := by
    simp only [create_page_image, h, if_true]
  rw [hret]
  exact ⟨rfl, rfl, fun size hmem => by simp at hmem⟩

theorem create_page_image_fewer_than_four_witness :
    map_size [((1 : Int), (⟨0, 0⟩ : CvPoint2D32f)), (2, ⟨100, 0⟩), (3, ⟨100, 100⟩)] < 4 ∧
    (create_page_image cv_unit book_example [(1, ⟨0, 0⟩), (2, ⟨100, 0⟩), (3, ⟨100, 100⟩)]
      ⟨100, 100⟩).ret = none ∧
    (create_page_image cv_unit book_example [(1, ⟨0, 0⟩), (2, ⟨100, 0⟩), (3, ⟨100, 100⟩)]
      ⟨100, 100⟩).trace = [] ∧
    ∀ size, Event.cvCreateImage size ∉
      (create_page_image cv_unit book_example [(1, ⟨0, 0⟩), (2, ⟨100, 0⟩), (3, ⟨100, 100⟩)]
        ⟨100, 100⟩).trace :=
  ⟨by decide, create_page_image_fewer_than_four cv_unit book_example _ ⟨100, 100⟩ (by decide)⟩

/-- C2, as stated, fails: with nothing detected and the one-entry target `1 ↦ (0,0)`
the identity 1 is requested and missing, yet the call returns NULL without any
diagnostic output (the size check comes first): the trace is empty and names nothing. -/
theorem create_page_image_silent_failure :
    ¬ (∀ k ∈ map_keys [((1 : Int), (⟨0, 0⟩ : CvPoint2D32f))], k ∈ map_keys book_empty.src_markers) ∧
    (create_page_image cv_unit book_empty [(1, ⟨0, 0⟩)] ⟨100, 100⟩).ret = none ∧
    (create_page_image cv_unit book_empty [(1, ⟨0, 0⟩)] ⟨100, 100⟩).trace = [] ∧
    ¬ ∃ k, names_missing (create_page_image cv_unit book_empty [(1, ⟨0, 0⟩)] ⟨100, 100⟩).trace k := by
  refine ⟨by simp [map_keys, book_empty], by simp [create_page_image, map_size],
    by simp [create_page_image, map_size], ?_⟩
  rintro ⟨k, hk⟩
  have := List.IsSuffix.length_le hk
  simp [create_page_image, map_size] at this

/-- C2, amended: when some identity of `dst_markers` is not a key of `src_markers`,
`create_page_image(dst_markers, dst_size)` returns NULL and allocates no destination
image; when `dst_markers` has at least 4 entries, the output ends with the diagnostic
naming an identity that is a key of `dst_markers` and not of `src_markers`; when it has
fewer than 4 entries the call returns from the size check and prints nothing. -/
theorem create_page_image_unresolved {Pix H : Type} (cv : OpenCV Pix H)
    (self : BookImage Pix) (dst_markers : StdMap CvPoint2D32f) (dst_size : CvSize)
    (hmiss : ¬ ∀ k ∈ map_keys dst_markers, k ∈ map_keys self.src_markers) :
    (create_page_image cv self dst_markers dst_size).ret = none ∧
    (∀ size, Event.cvCreateImage size ∉ (create_page_image cv self dst_markers dst_size).trace) ∧
    (4 ≤ map_size dst_markers →
      ∃ k, k ∈ map_keys dst_markers ∧ k ∉ map_keys self.src_markers ∧
        names_missing (create_page_image cv self dst_markers dst_size).trace k) ∧
    (map_size dst_markers < 4 →
      (create_page_image cv self dst_markers dst_size).trace = []) := by
  by_cases h4 : 4 ≤ map_size dst_markers
  · have hm : ∃ k ∈ map_keys dst_markers, k ∉ map_keys self.src_markers := by
      push_neg at hmiss; exact hmiss
    obtain ⟨h1, h2, h3⟩ := create_page_image_missing cv self dst_markers dst_size h4 hm
    exact ⟨h1, h3, fun _ => h2, fun hlt => absurd hlt (by omega)⟩
  · have hlt : map_size dst_markers < 4 := by omega
    obtain ⟨h1, h2, h3⟩ := create_page_image_short cv self dst_markers dst_size hlt
    exact ⟨h1, h3, fun h => absurd h h4, fun _ => h2⟩

theorem create_page_image_unresolved_witness :
    (¬ ∀ k ∈ map_keys ([(1, ⟨0, 0⟩), (2, ⟨100, 0⟩), (3, ⟨100, 100⟩), (7, ⟨0, 100⟩)] :
        StdMap CvPoint2D32f), k ∈ map_keys book_example.src_markers) ∧
    ((create_page_image cv_unit book_example
      [(1, ⟨0, 0⟩), (2, ⟨100, 0⟩), (3, ⟨100, 100⟩), (7, ⟨0, 100⟩)] ⟨100, 100⟩).ret = none ∧
    (∀ size, Event.cvCreateImage size ∉ (create_page_image cv_unit book_example
      [(1, ⟨0, 0⟩), (2, ⟨100, 0⟩), (3, ⟨100, 100⟩), (7, ⟨0, 100⟩)] ⟨100, 100⟩).trace) ∧
    (4 ≤ map_size ([(1, ⟨0, 0⟩), (2, ⟨100, 0⟩), (3, ⟨100, 100⟩), (7, ⟨0, 100⟩)] :
        StdMap CvPoint2D32f) →
      ∃ k, k ∈ map_keys ([(1, ⟨0, 0⟩), (2, ⟨100, 0⟩), (3, ⟨100, 100⟩), (7, ⟨0, 100⟩)] :
          StdMap CvPoint2D32f) ∧ k ∉ map_keys book_example.src_markers ∧
        names_missing (create_page_image cv_unit book_example
          [(1, ⟨0, 0⟩), (2, ⟨100, 0⟩), (3, ⟨100, 100⟩), (7, ⟨0, 100⟩)] ⟨100, 100⟩).trace k) ∧
    (map_size ([(1, ⟨0, 0⟩), (2, ⟨100, 0⟩), (3, ⟨100, 100⟩), (7, ⟨0, 100⟩)] :
        StdMap CvPoint2D32f) < 4 →
      (create_page_image cv_unit book_example
        [(1, ⟨0, 0⟩), (2, ⟨100, 0⟩), (3, ⟨100, 100⟩), (7, ⟨0, 100⟩)] ⟨100, 100⟩).trace = [])) ∧
    names_missing (create_page_image cv_unit book_example
      [(1, ⟨0, 0⟩), (2, ⟨100, 0⟩), (3, ⟨100, 100⟩), (7, ⟨0, 100⟩)] ⟨100, 100⟩).trace 7 := by
  have hmiss : ¬ ∀ k ∈ map_keys ([(1, ⟨0, 0⟩), (2, ⟨100, 0⟩), (3, ⟨100, 100⟩), (7, ⟨0, 100⟩)] :
      StdMap CvPoint2D32f), k ∈ map_keys book_example.src_markers := by
    simp [map_keys, book_example, markers_detected]
  refine ⟨hmiss, create_page_image_unresolved cv_unit book_example _ ⟨100, 100⟩ hmiss, ?_⟩
  simp only [create_page_image, fill_points, map_find, map_size, book_example,
    markers_detected, names_missing, cvmSet, cvCreateMat, List.length_cons, List.length_nil]
  simp only [show ¬ (0 + 1 + 1 + 1 + 1 < 4) by decide, if_false, if_true, List.cons_append,
    List.nil_append, show ¬ ((2 : Int) = 1) by decide, show ¬ ((3 : Int) = 1) by decide,
    show ¬ ((3 : Int) = 2) by decide, show ¬ ((7 : Int) = 1) by decide,
    show ¬ ((7 : Int) = 2) by decide, show ¬ ((7 : Int) = 3) by decide,
    show ¬ ((7 : Int) = 4) by decide]
  exact ⟨[Event.cvCreateMat 4 2, Event.cvCreateMat 4 2,
    Event.cout (Tok.str "The following corner markers are recognized: "),
    Event.cout (Tok.int 1), Event.cout (Tok.str " "), Event.cout (Tok.int 2),
    Event.cout (Tok.str " "), Event.cout (Tok.int 3), Event.cout (Tok.str " "),
    Event.cvReleaseMat, Event.cvReleaseMat], rfl⟩

/-- C3: when `dst_markers` has at least 4 entries and every identity of it is a key of
`src_markers`, `create_page_image(dst_markers, dst_size)` does not fail. Its one call of
`cvFindHomography` receives exactly `dst_markers.size()` correspondences: both matrices
have that many rows and no more, and for the `i`-th entry `(k, d)` of `dst_markers` row
`i` of the source matrix is `src_markers[k]` and row `i` of the destination matrix is
`d`. No missing-marker diagnostic is printed, the only image allocated has size
`dst_size`, and the call returns that image, filled by `cvWarpPerspective` from the
homography solved on these two matrices. -/
theorem create_page_image_succeeds {Pix H : Type} (cv : OpenCV Pix H)
    (self : BookImage Pix) (dst_markers : StdMap CvPoint2D32f) (dst_size : CvSize)
    (h4 : 4 ≤ map_size dst_markers)
    (hsub : ∀ k ∈ map_keys dst_markers, k ∈ map_keys self.src_markers) :
    ∃ (img : IplImage Pix) (src_points dst_points : CvMat),
      (create_page_image cv self dst_markers dst_size).ret = some img ∧
      img.size = dst_size ∧
      img.pixels = cv.cvWarpPerspective self.src_img ⟨dst_size, cv.cvCreateImage dst_size⟩
        (cv.cvFindHomography src_points dst_points) ∧
      Event.cvFindHomography src_points dst_points ∈
        (create_page_image cv self dst_markers dst_size).trace ∧
      src_points.rows = map_size dst_markers ∧ dst_points.rows = map_size dst_markers ∧
      src_points.data.length = map_size dst_markers ∧
      dst_points.data.length = map_size dst_markers ∧
      (∀ r ∈ src_points.data, ∃ a b, r = [some a, some b]) ∧
      (∀ r ∈ dst_points.data, ∃ a b, r = [some a, some b]) ∧
      (∀ a b, Event.cvFindHomography a b ∈
        (create_page_image cv self dst_markers dst_size).trace →
          a = src_points ∧ b = dst_points) ∧
      (∀ i k d, dst_markers[i]? = some (k, d) →
        ∃ s, map_find self.src_markers k = some s ∧
          src_points.row i = some [some s.x, some s.y] ∧
          dst_points.row i = some [some d.x, some d.y]) ∧
      (∀ i, map_size dst_markers ≤ i →
        src_points.row i = none ∧ dst_points.row i = none) ∧
      src_points.cols = 2 ∧ dst_points.cols = 2 ∧
      Event.cvCreateImage dst_size ∈
        (create_page_image cv self dst_markers dst_size).trace ∧
      (∀ size, Event.cvCreateImage size ∈
        (create_page_image cv self dst_markers dst_size).trace → size = dst_size) ∧
      Event.cout (Tok.str "Couldn't find ") ∉
        (create_page_image cv self dst_markers dst_size).trace := by
  rw [create_page_image_filled cv self dst_markers dst_size h4 hsub]
  refine ⟨_, ⟨map_size dst_markers, 2, dst_markers.map (src_row self.src_markers)⟩,
    ⟨map_size dst_markers, 2, dst_markers.map dst_row⟩, rfl, rfl, rfl, ?_, rfl, rfl, ?_, ?_,
    ?_, ?_, ?_, ?_, ?_, rfl, rfl, ?_, ?_, ?_⟩
  · simp [success_trace]
  · simp [map_size]
  · simp [map_size]
  · intro r hr
    simp only [List.mem_map] at hr
    obtain ⟨e, he, rfl⟩ := hr
    have hin : e.1 ∈ map_keys self.src_markers :=
      hsub e.1 (by simp only [map_keys, List.mem_map]; exact ⟨e, he, rfl⟩)
    obtain ⟨s, hs⟩ := (map_find_isSome_iff _ _).2 hin
    exact ⟨s.x, s.y, by simp [src_row, hs]⟩
  · intro r hr
    simp only [List.mem_map] at hr
    obtain ⟨e, _, rfl⟩ := hr
    exact ⟨e.2.x, e.2.y, rfl⟩
  · intro a b hab
    simp only [success_trace, List.mem_append, List.mem_cons, List.mem_singleton,
      Event.cvFindHomography.injEq, List.not_mem_nil, or_false, false_or,
      mem_recognized_not_homography, reduceCtorEq] at hab
    exact hab
  · intro i k d hi
    have hin : k ∈ map_keys self.src_markers :=
      hsub k (by
        simp only [map_keys, List.mem_map]
        exact ⟨(k, d), List.mem_iff_getElem?.2 ⟨i, hi⟩, rfl⟩)
    obtain ⟨s, hs⟩ := (map_find_isSome_iff _ _).2 hin
    refine ⟨s, hs, ?_, ?_⟩
    · simp [CvMat.row, List.getElem?_map, hi, src_row, hs]
    · simp [CvMat.row, List.getElem?_map, hi, dst_row]
  · intro i hi
    have hlen : dst_markers.length ≤ i := hi
    simp [CvMat.row, List.getElem?_map, List.getElem?_eq_none hlen]
  · simp [success_trace]
  · intro size hsize
    simp only [success_trace, recognized, List.mem_append, List.mem_cons, List.mem_singleton,
      List.mem_flatMap, Event.cvCreateImage.injEq, List.not_mem_nil, or_false, false_or,
      reduceCtorEq, and_false, exists_false] at hsize
    exact hsize
  · simp [success_trace, recognized]

theorem create_page_image_succeeds_witness :
    4 ≤ map_size markers_target ∧
    (∀ k ∈ map_keys markers_target, k ∈ map_keys book_example.src_markers) ∧
    ∃ (img : IplImage Unit) (src_points dst_points : CvMat),
      (create_page_image cv_unit book_example markers_target ⟨100, 100⟩).ret = some img ∧
      img.size = ⟨100, 100⟩ ∧
      img.pixels = cv_unit.cvWarpPerspective book_example.src_img
        ⟨⟨100, 100⟩, cv_unit.cvCreateImage ⟨100, 100⟩⟩
        (cv_unit.cvFindHomography src_points dst_points) ∧
      Event.cvFindHomography src_points dst_points ∈
        (create_page_image cv_unit book_example markers_target ⟨100, 100⟩).trace ∧
      src_points.rows = map_size markers_target ∧ dst_points.rows = map_size markers_target ∧
      src_points.data.length = map_size markers_target ∧
      dst_points.data.length = map_size markers_target ∧
      (∀ r ∈ src_points.data, ∃ a b, r = [some a, some b]) ∧
      (∀ r ∈ dst_points.data, ∃ a b, r = [some a, some b]) ∧
      (∀ a b, Event.cvFindHomography a b ∈
        (create_page_image cv_unit book_example markers_target ⟨100, 100⟩).trace →
          a = src_points ∧ b = dst_points) ∧
      (∀ i k d, markers_target[i]? = some (k, d) →
        ∃ s, map_find book_example.src_markers k = some s ∧
          src_points.row i = some [some s.x, some s.y] ∧
          dst_points.row i = some [some d.x, some d.y]) ∧
      (∀ i, map_size markers_target ≤ i →
        src_points.row i = none ∧ dst_points.row i = none) ∧
      src_points.cols = 2 ∧ dst_points.cols = 2 ∧
      Event.cvCreateImage ⟨100, 100⟩ ∈
        (create_page_image cv_unit book_example markers_target ⟨100, 100⟩).trace ∧
      (∀ size, Event.cvCreateImage size ∈
        (create_page_image cv_unit book_example markers_target ⟨100, 100⟩).trace →
          size = ⟨100, 100⟩) ∧
      Event.cout (Tok.str "Couldn't find ") ∉
        (create_page_image cv_unit book_example markers_target ⟨100, 100⟩).trace :=
  ⟨by decide, by decide,
    create_page_image_succeeds cv_unit book_example markers_target ⟨100, 100⟩ (by decide)
      (by decide)⟩

/-- C4: for a well-formed physical-space `dst_markers` and any layout, the layout
overload returns what the pixel-space overload returns on (a) the map with the same
identities sending a position (x, y) to ((x − page_left)·dpi, (y − page_top)·dpi) and
(b) the size computed from the layout, so it returns NULL exactly when that call does; it
is undefined only when the size conversion is. For the layout {0, 0, 10, 8, 100} the size
passed on is 1000×800 and a marker at (5,4) is passed on at (500,400). -/
theorem layout_overload_delegates {Pix H : Type} (cv : OpenCV Pix H) (self : BookImage Pix)
    (dst_markers : StdMap CvPoint2D32f) (layout : LayoutInfo) (hwf : map_wf dst_markers) :
    create_page_image_layout cv self dst_markers layout
      = (pageSize layout).map
          (fun size => create_page_image cv self (pixel_map layout dst_markers) size) ∧
    map_keys (pixel_map layout dst_markers) = map_keys dst_markers ∧
    (∀ k p, map_find dst_markers k = some p →
      map_find (pixel_map layout dst_markers) k
        = some ⟨(p.x - layout.page_left) * layout.dpi, (p.y - layout.page_top) * layout.dpi⟩) ∧
    (∀ size, pageSize layout = some size →
      ∃ out, create_page_image_layout cv self dst_markers layout = some out ∧
        (out.ret = none ↔
          (create_page_image cv self (pixel_map layout dst_markers) size).ret = none)) ∧
    pageSize layout_example = some ⟨1000, 800⟩ ∧
    (∀ k, map_find dst_markers k = some ⟨5, 4⟩ →
      map_find (dst_markers_px layout_example dst_markers) k = some ⟨500, 400⟩) := by
  have hpx := dst_markers_px_eq_pixel_map layout dst_markers hwf
  have heq : create_page_image_layout cv self dst_markers layout
      = (pageSize layout).map
          (fun size => create_page_image cv self (pixel_map layout dst_markers) size) := by
    simp only [create_page_image_layout, hpx]
    cases pageSize layout <;> rfl
  refine ⟨heq, ?_, ?_, ?_, pageSize_example, ?_⟩
  · simp [pixel_map, map_keys, Function.comp_def]
  · intro k p hk
    rw [map_find_pixel_map, hk]; rfl
  · intro size hsize
    refine ⟨create_page_image cv self (pixel_map layout dst_markers) size, ?_, Iff.rfl⟩
    rw [heq, hsize]; rfl
  · intro k hk
    rw [dst_markers_px_eq_pixel_map layout_example dst_markers hwf, map_find_pixel_map, hk]
    simp only [Option.map_some', layout_example]
    norm_num

theorem layout_overload_delegates_witness :
    map_wf markers_physical ∧
    (create_page_image_layout cv_unit book_example markers_physical layout_example
      = (pageSize layout_example).map
          (fun size => create_page_image cv_unit book_example
            (pixel_map layout_example markers_physical) size) ∧
    map_keys (pixel_map layout_example markers_physical) = map_keys markers_physical ∧
    (∀ k p, map_find markers_physical k = some p →
      map_find (pixel_map layout_example markers_physical) k
        = some ⟨(p.x - layout_example.page_left) * layout_example.dpi,
            (p.y - layout_example.page_top) * layout_example.dpi⟩) ∧
    (∀ size, pageSize layout_example = some size →
      ∃ out, create_page_image_layout cv_unit book_example markers_physical layout_example
          = some out ∧
        (out.ret = none ↔
          (create_page_image cv_unit book_example
            (pixel_map layout_example markers_physical) size).ret = none)) ∧
    pageSize layout_example = some ⟨1000, 800⟩ ∧
    (∀ k, map_find markers_physical k = some ⟨5, 4⟩ →
      map_find (dst_markers_px layout_example markers_physical) k = some ⟨500, 400⟩)) :=
  ⟨by decide, layout_overload_delegates cv_unit book_example markers_physical layout_example
    (by decide)⟩

/-- C5, as stated, fails: for a letter-size page (8.5 by 11 units) at 300 dpi the code
computes a width of 2550 pixels, while rounding the physical extent first and multiplying
by dpi afterwards gives round(8.5) × 300 = 2700. -/
theorem pageSize_not_rounded_extent_times_dpi :
    pageSize layout_letter = some ⟨2550, 3300⟩ ∧ claimed_width layout_letter = 2700 ∧
    ((2550 : Int) : ℚ) ≠ claimed_width layout_letter := by
  have hw : ⌊((17 / 2 : ℚ) - 0) * 300 + 0.5⌋ = 2550 := by rw [Int.floor_eq_iff]; norm_num
  have hh : ⌊((11 : ℚ) - 0) * 300 + 0.5⌋ = 3300 := by rw [Int.floor_eq_iff]; norm_num
  have h1 := static_cast_int_of_nonneg (((17 / 2 : ℚ) - 0) * 300 + 0.5) (by norm_num)
    (by rw [hw]; decide)
  have h2 := static_cast_int_of_nonneg (((11 : ℚ) - 0) * 300 + 0.5) (by norm_num)
    (by rw [hh]; decide)
  have hr : ⌊((17 / 2 : ℚ) - 0) + 1 / 2⌋ = 9 := by rw [Int.floor_eq_iff]; norm_num
  have hc : claimed_width layout_letter = 2700 := by
    have hpos : (0 : ℚ) ≤ 17 / 2 - 0 + 1 / 2 := by norm_num
    simp only [claimed_width, layout_letter, round_half, truncate, hpos, if_true, hr]
    norm_num
  refine ⟨?_, hc, ?_⟩
  · simp only [pageSize, layout_letter, h1, h2, hw, hh, cvSize]
  · rw [hc]; norm_num

/-- C5, amended: the destination width is round((page_right − page_left) × dpi) and the
height round((page_bottom − page_top) × dpi), where round is "add 0.5 and truncate"
applied to the extent already multiplied by dpi; the size is defined exactly when both
rounded values fit a 32-bit `int`. -/
theorem pageSize_rounds_pixel_extent (layout : LayoutInfo) :
    pageSize layout =
      if in_int (round_half ((layout.page_right - layout.page_left) * layout.dpi)) ∧
          in_int (round_half ((layout.page_bottom - layout.page_top) * layout.dpi)) then
        some ⟨round_half ((layout.page_right - layout.page_left) * layout.dpi),
          round_half ((layout.page_bottom - layout.page_top) * layout.dpi)⟩
      else none := by
  have half : (0.5 : ℚ) = 1 / 2 := by norm_num
  simp only [pageSize, static_cast_int_eq, half, round_half, cvSize]
  by_cases hw : in_int (truncate ((layout.page_right - layout.page_left) * layout.dpi + 1 / 2))
  · by_cases hh :
      in_int (truncate ((layout.page_bottom - layout.page_top) * layout.dpi + 1 / 2))
    · simp only [hw, hh, if_true, and_self]
    · simp only [hw, hh, if_true, if_false, and_false]
  · simp only [hw, if_false, false_and]

/-- C6: after construction 8 and 9 are not keys of `src_markers`; an alert flag is set
only for 8 or 9; the flag of 8 (of 9) is set exactly when some contour that passed the
quadrilateral filter was identified as 8 (as 9); no identity is a key of both
`src_markers` and `alert_marker_present`. -/
theorem ctor_alert_identities {Pix Gray Contour Poly : Type}
    (v : Vision Pix Gray Contour Poly) (src_img : IplImage Pix) :
    (8 ∉ map_keys (BookImage.ctor v src_img).src_markers ∧
      9 ∉ map_keys (BookImage.ctor v src_img).src_markers) ∧
    (∀ k, alert_set (BookImage.ctor v src_img).alert_marker_present k → k = 8 ∨ k = 9) ∧
    (alert_set (BookImage.ctor v src_img).alert_marker_present 8 ↔
      ∃ c ∈ find_contours v src_img,
        accepted v c ∧ identity_of v (v.cvCvtColor src_img) c = 8) ∧
    (alert_set (BookImage.ctor v src_img).alert_marker_present 9 ↔
      ∃ c ∈ find_contours v src_img,
        accepted v c ∧ identity_of v (v.cvCvtColor src_img) c = 9) ∧
    (∀ k, ¬ (k ∈ map_keys (BookImage.ctor v src_img).src_markers ∧
      k ∈ map_keys (BookImage.ctor v src_img).alert_marker_present)) := by
  have hsrc : ∀ k, k ∈ map_keys (BookImage.ctor v src_img).src_markers ↔
      (k ≠ -1 ∧ k ≠ 8 ∧ k ≠ 9 ∧ ∃ c ∈ find_contours v src_img,
        accepted v c ∧ identity_of v (v.cvCvtColor src_img) c = k) := by
    intro k
    rw [← map_find_isSome_iff]
    have h := examine_contours_src_keys v (v.cvCvtColor src_img) k (find_contours v src_img)
      ⟨[], [], []⟩
    simpa [map_find] using h
  have hal : ∀ k,
      (k ∈ map_keys (BookImage.ctor v src_img).alert_marker_present ↔
        ((k = 8 ∨ k = 9) ∧ ∃ c ∈ find_contours v src_img,
          accepted v c ∧ identity_of v (v.cvCvtColor src_img) c = k)) ∧
      (alert_set (BookImage.ctor v src_img).alert_marker_present k ↔
        ((k = 8 ∨ k = 9) ∧ ∃ c ∈ find_contours v src_img,
          accepted v c ∧ identity_of v (v.cvCvtColor src_img) c = k)) := by
    intro k
    rw [← map_find_isSome_iff]
    have h := examine_contours_alert v (v.cvCvtColor src_img) k (find_contours v src_img)
      ⟨[], [], []⟩
    simpa [map_find, alert_set] using h
  refine ⟨⟨?_, ?_⟩, ?_, ?_, ?_, ?_⟩
  · intro h; exact ((hsrc 8).1 h).2.1 rfl
  · intro h; exact ((hsrc 9).1 h).2.2.1 rfl
  · intro k h; exact ((hal k).2.1 h).1
  · rw [(hal 8).2]; simp
  · rw [(hal 9).2]; simp
  · rintro k ⟨h1, h2⟩
    have hs := (hsrc k).1 h1
    rcases ((hal k).1.1 h2).1 with h | h
    · exact hs.2.1 h
    · exact hs.2.2.1 h

theorem ctor_alert_identities_witness :
    ((8 ∉ map_keys (BookImage.ctor vision_example photo).src_markers ∧
      9 ∉ map_keys (BookImage.ctor vision_example photo).src_markers) ∧
    (∀ k, alert_set (BookImage.ctor vision_example photo).alert_marker_present k →
      k = 8 ∨ k = 9) ∧
    (alert_set (BookImage.ctor vision_example photo).alert_marker_present 8 ↔
      ∃ c ∈ find_contours vision_example photo,
        accepted vision_example c ∧
          identity_of vision_example (vision_example.cvCvtColor photo) c = 8) ∧
    (alert_set (BookImage.ctor vision_example photo).alert_marker_present 9 ↔
      ∃ c ∈ find_contours vision_example photo,
        accepted vision_example c ∧
          identity_of vision_example (vision_example.cvCvtColor photo) c = 9) ∧
    (∀ k, ¬ (k ∈ map_keys (BookImage.ctor vision_example photo).src_markers ∧
      k ∈ map_keys (BookImage.ctor vision_example photo).alert_marker_present))) ∧
    (BookImage.ctor vision_example photo).alert_marker_present = [(8, true)] ∧
    (BookImage.ctor vision_example photo).src_markers = [(1, ⟨20, 20⟩)] :=
  ⟨ctor_alert_identities vision_example photo, rfl, rfl⟩

/-- C7: when no contour of the source image passes the quadrilateral filter, after
construction `src_markers` and `alert_marker_present` are empty (no flag is set), and
every later `create_page_image(dst_markers, dst_size)` returns NULL: without any step when
`dst_markers` has fewer than 4 entries, and otherwise with the diagnostic naming a
requested identity as missing. -/
theorem ctor_no_quadrilaterals {Pix Gray Contour Poly : Type}
    (v : Vision Pix Gray Contour Poly) (src_img : IplImage Pix)
    (hnone : ∀ c ∈ find_contours v src_img, ¬ accepted v c) :
    (BookImage.ctor v src_img).src_markers = [] ∧
    (BookImage.ctor v src_img).alert_marker_present = [] ∧
    (∀ k, ¬ alert_set (BookImage.ctor v src_img).alert_marker_present k) ∧
    ∀ (H : Type) (cv : OpenCV Pix H) (dst_markers : StdMap CvPoint2D32f) (dst_size : CvSize),
      (create_page_image cv (BookImage.ctor v src_img) dst_markers dst_size).ret = none ∧
      (map_size dst_markers < 4 →
        (create_page_image cv (BookImage.ctor v src_img) dst_markers dst_size).trace = []) ∧
      (4 ≤ map_size dst_markers →
        ∃ k ∈ map_keys dst_markers,
          names_missing
            (create_page_image cv (BookImage.ctor v src_img) dst_markers dst_size).trace k) := by
  have hst : detect v src_img = ⟨[], [], []⟩ :=
    examine_contours_none_accepted v (v.cvCvtColor src_img) (find_contours v src_img) _ hnone
  have hsrc : (BookImage.ctor v src_img).src_markers = [] := by
    show (detect v src_img).src_markers = []
    rw [hst]
  have halert : (BookImage.ctor v src_img).alert_marker_present = [] := by
    show (detect v src_img).alert_marker_present = []
    rw [hst]
  refine ⟨hsrc, halert, ?_, ?_⟩
  · intro k; rw [halert]; simp [alert_set, map_find]
  · intro H cv dst_markers dst_size
    by_cases h4 : 4 ≤ map_size dst_markers
    · have hmiss : ∃ k ∈ map_keys dst_markers,
          k ∉ map_keys (BookImage.ctor v src_img).src_markers := by
        cases dst_markers with
        | nil => simp [map_size] at h4
        | cons e rest => exact ⟨e.1, by simp [map_keys], by rw [hsrc]; simp [map_keys]⟩
      obtain ⟨h1, ⟨k, hk, _, hname⟩, _⟩ :=
        create_page_image_missing cv (BookImage.ctor v src_img) dst_markers dst_size h4 hmiss
      exact ⟨h1, fun hlt => absurd hlt (by omega), fun _ => ⟨k, hk, hname⟩⟩
    · have hlt : map_size dst_markers < 4 := by omega
      obtain ⟨h1, h2, _⟩ :=
        create_page_image_short cv (BookImage.ctor v src_img) dst_markers
          dst_size hlt
      exact ⟨h1, fun _ => h2, fun h => absurd h h4⟩

theorem ctor_no_quadrilaterals_witness :
    (∀ c ∈ find_contours vision_blank photo, ¬ accepted vision_blank c) ∧
    ((BookImage.ctor vision_blank photo).src_markers = [] ∧
    (BookImage.ctor vision_blank photo).alert_marker_present = [] ∧
    (∀ k, ¬ alert_set (BookImage.ctor vision_blank photo).alert_marker_present k) ∧
    ∀ (H : Type) (cv : OpenCV Unit H) (dst_markers : StdMap CvPoint2D32f) (dst_size : CvSize),
      (create_page_image cv (BookImage.ctor vision_blank photo) dst_markers dst_size).ret
        = none ∧
      (map_size dst_markers < 4 →
        (create_page_image cv (BookImage.ctor vision_blank photo) dst_markers dst_size).trace
          = []) ∧
      (4 ≤ map_size dst_markers →
        ∃ k ∈ map_keys dst_markers,
          names_missing
            (create_page_image cv (BookImage.ctor vision_blank photo) dst_markers
              dst_size).trace k)) :=
  ⟨by simp [find_contours, vision_blank, accepted],
    ctor_no_quadrilaterals vision_blank photo
      (by simp [find_contours, vision_blank, accepted])⟩

/-- C8: for a well-formed `dst_markers` with at least 4 entries, all resolving in
`src_markers`, the one call of `cvFindHomography` receives two matrices of exactly
`dst_markers.size()` rows; the identity `k` that has `i` smaller identities in
`dst_markers` (the `i`-th in ascending order, which is also its place in iteration order)
fills row `i` of the source matrix with `src_markers[k]` and row `i` of the destination
matrix with `dst_markers[k]`; every row stems from a requested identity. On the
specification's example the rows are (10,10),(110,10),(110,110),(10,110) and
(0,0),(100,0),(100,100),(0,100). -/
theorem homography_rows_follow_identities {Pix H : Type} (cv : OpenCV Pix H)
    (self : BookImage Pix) (dst_markers : StdMap CvPoint2D32f) (dst_size : CvSize)
    (hwf : map_wf dst_markers) (h4 : 4 ≤ map_size dst_markers)
    (hsub : ∀ k ∈ map_keys dst_markers, k ∈ map_keys self.src_markers) :
    (∃ (src_points dst_points : CvMat),
      Event.cvFindHomography src_points dst_points ∈
        (create_page_image cv self dst_markers dst_size).trace ∧
      (∀ a b, Event.cvFindHomography a b ∈
        (create_page_image cv self dst_markers dst_size).trace →
          a = src_points ∧ b = dst_points) ∧
      src_points.rows = map_size dst_markers ∧ dst_points.rows = map_size dst_markers ∧
      src_points.data.length = map_size dst_markers ∧
      dst_points.data.length = map_size dst_markers ∧
      (∀ i k d, dst_markers[i]? = some (k, d) → rank dst_markers k = i) ∧
      (∀ k d, (k, d) ∈ dst_markers → ∃ s, map_find self.src_markers k = some s ∧
        src_points.row (rank dst_markers k) = some [some s.x, some s.y] ∧
        dst_points.row (rank dst_markers k) = some [some d.x, some d.y]) ∧
      (∀ i r, src_points.row i = some r →
        ∃ k ∈ map_keys dst_markers, rank dst_markers k = i)) ∧
    Event.cvFindHomography
        ⟨4, 2, [[some 10, some 10], [some 110, some 10], [some 110, some 110],
          [some 10, some 110]]⟩
        ⟨4, 2, [[some 0, some 0], [some 100, some 0], [some 100, some 100],
          [some 0, some 100]]⟩ ∈
      (create_page_image cv_unit book_example markers_target ⟨100, 100⟩).trace := by
  constructor
  · rw [create_page_image_filled cv self dst_markers dst_size h4 hsub]
    have hpos : ∀ i k d, dst_markers[i]? = some (k, d) → rank dst_markers k = i :=
      fun i k d h => rank_of_index dst_markers hwf i (k, d) h
    refine ⟨⟨map_size dst_markers, 2, dst_markers.map (src_row self.src_markers)⟩,
      ⟨map_size dst_markers, 2, dst_markers.map dst_row⟩, ?_, ?_, rfl, rfl, ?_, ?_, hpos,
      ?_, ?_⟩
    · simp [success_trace]
    · intro a b hab
      simp only [success_trace, List.mem_append, List.mem_cons, List.mem_singleton,
        Event.cvFindHomography.injEq, List.not_mem_nil, or_false, false_or,
        mem_recognized_not_homography, reduceCtorEq] at hab
      exact hab
    · simp [map_size]
    · simp [map_size]
    · intro k d hkd
      obtain ⟨i, hi⟩ := List.mem_iff_getElem?.1 hkd
      have hin : k ∈ map_keys self.src_markers :=
        hsub k (by simp only [map_keys, List.mem_map]; exact ⟨(k, d), hkd, rfl⟩)
      obtain ⟨s, hs⟩ := (map_find_isSome_iff _ _).2 hin
      refine ⟨s, hs, ?_, ?_⟩
      · rw [hpos i k d hi]
        simp [CvMat.row, List.getElem?_map, hi, src_row, hs]
      · rw [hpos i k d hi]
        simp [CvMat.row, List.getElem?_map, hi, dst_row]
    · intro i r hr
      simp only [CvMat.row, List.getElem?_map] at hr
      cases he : dst_markers[i]? with
      | none => simp [he] at hr
      | some e => ?_
      refine ⟨e.1, ?_, hpos i e.1 e.2 he⟩
      simp only [map_keys, List.mem_map]
      exact ⟨e, List.mem_iff_getElem?.2 ⟨i, he⟩, rfl⟩
  · rw [create_page_image_filled cv_unit book_example markers_target ⟨100, 100⟩ (by decide)
      (by decide)]
    simp [success_trace, markers_target, book_example, markers_detected, src_row, dst_row,
      map_find, map_size]

theorem homography_rows_follow_identities_witness :
    map_wf markers_target ∧ 4 ≤ map_size markers_target ∧
    (∀ k ∈ map_keys markers_target, k ∈ map_keys book_example.src_markers) ∧
    ((∃ (src_points dst_points : CvMat),
      Event.cvFindHomography src_points dst_points ∈
        (create_page_image cv_unit book_example markers_target ⟨100, 100⟩).trace ∧
      (∀ a b, Event.cvFindHomography a b ∈
        (create_page_image cv_unit book_example markers_target ⟨100, 100⟩).trace →
          a = src_points ∧ b = dst_points) ∧
      src_points.rows = map_size markers_target ∧ dst_points.rows = map_size markers_target ∧
      src_points.data.length = map_size markers_target ∧
      dst_points.data.length = map_size markers_target ∧
      (∀ i k d, markers_target[i]? = some (k, d) → rank markers_target k = i) ∧
      (∀ k d, (k, d) ∈ markers_target → ∃ s, map_find book_example.src_markers k = some s ∧
        src_points.row (rank markers_target k) = some [some s.x, some s.y] ∧
        dst_points.row (rank markers_target k) = some [some d.x, some d.y]) ∧
      (∀ i r, src_points.row i = some r →
        ∃ k ∈ map_keys markers_target, rank markers_target k = i)) ∧
    Event.cvFindHomography
        ⟨4, 2, [[some 10, some 10], [some 110, some 10], [some 110, some 110],
          [some 10, some 110]]⟩
        ⟨4, 2, [[some 0, some 0], [some 100, some 0], [some 100, some 100],
          [some 0, some 100]]⟩ ∈
      (create_page_image cv_unit book_example markers_target ⟨100, 100⟩).trace) :=
  ⟨by decide, by decide, by decide,
    homography_rows_follow_identities cv_unit book_example markers_target ⟨100, 100⟩
      (by decide) (by decide) (by decide)⟩

/-- C9: after construction `k` is a key of `src_markers` exactly when `k` is none of −1,
8, 9 and `analyze_marker` returned `k` for a contour that passed the quadrilateral
filter; `src_markers[k]` is then `points[0]` of the last such contour in processing
order; `analyze_marker` is only ever called on polygons with 4 vertices that are convex;
−1 is not a key. -/
theorem ctor_src_markers {Pix Gray Contour Poly : Type}
    (v : Vision Pix Gray Contour Poly) (src_img : IplImage Pix) (k : Int) :
    (k ∈ map_keys (BookImage.ctor v src_img).src_markers ↔
      (k ≠ -1 ∧ k ≠ 8 ∧ k ≠ 9 ∧ ∃ c ∈ find_contours v src_img,
        accepted v c ∧ identity_of v (v.cvCvtColor src_img) c = k)) ∧
    (k ∈ map_keys (BookImage.ctor v src_img).src_markers →
      ∃ pre c post, find_contours v src_img = pre ++ c :: post ∧
        accepted v c ∧ identity_of v (v.cvCvtColor src_img) c = k ∧
        (∀ c' ∈ post, ¬ (accepted v c' ∧ identity_of v (v.cvCvtColor src_img) c' = k)) ∧
        map_find (BookImage.ctor v src_img).src_markers k
          = some (corner_of v (v.cvCvtColor src_img) c)) ∧
    (∀ poly, DetectEvent.analyze_marker poly ∈ (detect v src_img).trace →
      v.total poly = 4 ∧ v.cvCheckContourConvexity poly ≠ 0) ∧
    -1 ∉ map_keys (BookImage.ctor v src_img).src_markers := by
  have hsrc : ∀ k, k ∈ map_keys (BookImage.ctor v src_img).src_markers ↔
      (k ≠ -1 ∧ k ≠ 8 ∧ k ≠ 9 ∧ ∃ c ∈ find_contours v src_img,
        accepted v c ∧ identity_of v (v.cvCvtColor src_img) c = k) := by
    intro k
    rw [← map_find_isSome_iff]
    have h := examine_contours_src_keys v (v.cvCvtColor src_img) k (find_contours v src_img)
      ⟨[], [], []⟩
    simpa [map_find] using h
  refine ⟨hsrc k, ?_, ?_, ?_⟩
  · intro hk
    obtain ⟨h1, h8, h9, hex⟩ := (hsrc k).1 hk
    obtain ⟨pre, c, post, heq, ⟨hacc, hid⟩, hpost⟩ :=
      exists_last (fun c => accepted v c ∧ identity_of v (v.cvCvtColor src_img) c = k)
        (find_contours v src_img) hex
    refine ⟨pre, c, post, heq, hacc, hid, hpost, ?_⟩
    show map_find (examine_contours v (v.cvCvtColor src_img) ⟨[], [], []⟩
      (find_contours v src_img)).src_markers k = _
    rw [heq, examine_contours_append, examine_contours_cons,
      examine_contours_src_unwritten v (v.cvCvtColor src_img) k post _ hpost]
    exact (examine_contour_src v (v.cvCvtColor src_img) _ c k).1 ⟨hacc, hid, h1, h8, h9⟩
  · intro poly hp
    rcases examine_contours_trace v (v.cvCvtColor src_img) poly (find_contours v src_img)
      ⟨[], [], []⟩ hp with h | h
    · simp at h
    · exact h
  · intro h; exact ((hsrc (-1)).1 h).1 rfl

theorem ctor_src_markers_witness :
    ((1 ∈ map_keys (BookImage.ctor vision_example photo).src_markers ↔
      ((1 : Int) ≠ -1 ∧ (1 : Int) ≠ 8 ∧ (1 : Int) ≠ 9 ∧
        ∃ c ∈ find_contours vision_example photo,
          accepted vision_example c ∧
            identity_of vision_example (vision_example.cvCvtColor photo) c = 1)) ∧
    (1 ∈ map_keys (BookImage.ctor vision_example photo).src_markers →
      ∃ pre c post, find_contours vision_example photo = pre ++ c :: post ∧
        accepted vision_example c ∧
        identity_of vision_example (vision_example.cvCvtColor photo) c = 1 ∧
        (∀ c' ∈ post, ¬ (accepted vision_example c' ∧
          identity_of vision_example (vision_example.cvCvtColor photo) c' = 1)) ∧
        map_find (BookImage.ctor vision_example photo).src_markers 1
          = some (corner_of vision_example (vision_example.cvCvtColor photo) c)) ∧
    (∀ poly, DetectEvent.analyze_marker poly ∈ (detect vision_example photo).trace →
      vision_example.total poly = 4 ∧ vision_example.cvCheckContourConvexity poly ≠ 0) ∧
    -1 ∉ map_keys (BookImage.ctor vision_example photo).src_markers) ∧
    map_find (BookImage.ctor vision_example photo).src_markers 1 = some ⟨20, 20⟩ ∧
    map_find (BookImage.ctor vision_example photo).src_markers 2 = none ∧
    map_find (BookImage.ctor vision_example photo).src_markers 3 = none :=
  ⟨ctor_src_markers vision_example photo 1, rfl, rfl, rfl⟩

/-- C10: for a layout with `page_right ≥ page_left`, `page_bottom ≥ page_top`, `dpi ≥ 0`
whose pixel extents do not exceed `INT_MAX`, the size is defined and its width `w` is the
integer nearest to `p = (page_right − page_left)·dpi`, halves rounded up:
`w − 1/2 ≤ p < w + 1/2`; likewise the height; the specification's example layout gives
exactly 1000×800. -/
theorem pageSize_nearest_integer (layout : LayoutInfo)
    (hw : layout.page_left ≤ layout.page_right) (hh : layout.page_top ≤ layout.page_bottom)
    (hd : 0 ≤ layout.dpi)
    (hfw : (layout.page_right - layout.page_left) * layout.dpi ≤ (INT_MAX : ℚ))
    (hfh : (layout.page_bottom - layout.page_top) * layout.dpi ≤ (INT_MAX : ℚ)) :
    (∃ w h : Int, pageSize layout = some ⟨w, h⟩ ∧
      (w : ℚ) - 1 / 2 ≤ (layout.page_right - layout.page_left) * layout.dpi ∧
      (layout.page_right - layout.page_left) * layout.dpi < (w : ℚ) + 1 / 2 ∧
      (h : ℚ) - 1 / 2 ≤ (layout.page_bottom - layout.page_top) * layout.dpi ∧
      (layout.page_bottom - layout.page_top) * layout.dpi < (h : ℚ) + 1 / 2) ∧
    pageSize layout_example = some ⟨1000, 800⟩ := by
  refine ⟨?_, pageSize_example⟩
  have half : (0.5 : ℚ) = 1 / 2 := by norm_num
  have key : ∀ p : ℚ, 0 ≤ p → p ≤ (INT_MAX : ℚ) →
      static_cast_int (p + 0.5) = some ⌊p + 1 / 2⌋ ∧
      ((⌊p + 1 / 2⌋ : Int) : ℚ) - 1 / 2 ≤ p ∧ p < ((⌊p + 1 / 2⌋ : Int) : ℚ) + 1 / 2 := by
    intro p hp hmax
    have h1 : ((⌊p + 1 / 2⌋ : Int) : ℚ) ≤ p + 1 / 2 := Int.floor_le _
    have h2 : p + 1 / 2 < ((⌊p + 1 / 2⌋ : Int) : ℚ) + 1 := Int.lt_floor_add_one _
    refine ⟨?_, by linarith, by linarith⟩
    rw [half]
    apply static_cast_int_of_nonneg _ (by linarith)
    have h3 : ((⌊p + 1 / 2⌋ : Int) : ℚ) < ((INT_MAX + 1 : Int) : ℚ) := by
      push_cast; linarith
    have h4 : ⌊p + 1 / 2⌋ < INT_MAX + 1 := by exact_mod_cast h3
    omega
  obtain ⟨a1, a2, a3⟩ := key ((layout.page_right - layout.page_left) * layout.dpi)
    (mul_nonneg (by linarith) hd) hfw
  obtain ⟨b1, b2, b3⟩ := key ((layout.page_bottom - layout.page_top) * layout.dpi)
    (mul_nonneg (by linarith) hd) hfh
  refine ⟨_, _, ?_, a2, a3, b2, b3⟩
  simp only [pageSize, a1, b1, cvSize]

theorem pageSize_nearest_integer_witness :
    layout_letter.page_left ≤ layout_letter.page_right ∧
    layout_letter.page_top ≤ layout_letter.page_bottom ∧ 0 ≤ layout_letter.dpi ∧
    (layout_letter.page_right - layout_letter.page_left) * layout_letter.dpi
      ≤ (INT_MAX : ℚ) ∧
    (layout_letter.page_bottom - layout_letter.page_top) * layout_letter.dpi
      ≤ (INT_MAX : ℚ) ∧
    ((∃ w h : Int, pageSize layout_letter = some ⟨w, h⟩ ∧
      (w : ℚ) - 1 / 2 ≤ (layout_letter.page_right - layout_letter.page_left) * layout_letter.dpi ∧
      (layout_letter.page_right - layout_letter.page_left) * layout_letter.dpi < (w : ℚ) + 1 / 2 ∧
      (h : ℚ) - 1 / 2 ≤ (layout_letter.page_bottom - layout_letter.page_top) * layout_letter.dpi ∧
      (layout_letter.page_bottom - layout_letter.page_top) * layout_letter.dpi < (h : ℚ) + 1 / 2) ∧
    pageSize layout_example = some ⟨1000, 800⟩) :=
  ⟨by norm_num [layout_letter], by norm_num [layout_letter], by norm_num [layout_letter],
    by norm_num [layout_letter, INT_MAX], by norm_num [layout_letter, INT_MAX],
    pageSize_nearest_integer layout_letter (by norm_num [layout_letter])
      (by norm_num [layout_letter]) (by norm_num [layout_letter])
      (by norm_num [layout_letter, INT_MAX]) (by norm_num [layout_letter, INT_MAX])⟩

end Voussoir
